import Mathlib

/-!
Verification of the chunk-generation and SQL-rendering core of
`pgpartitionlib` (file `pgpartitionlib/__init__.py`), shallowly embedded in
Lean 4.  Python integers are `Int`; fallible code (Python exceptions such as
`ValueError` from `xrange(_, _, 0)`, `time.strptime`, or `str.format`
`KeyError`) is `Option`, with `none` meaning "the call raises".
-/

set_option maxHeartbeats 1000000
set_option maxRecDepth 20000

namespace PgPartition

/-! ## Integer chunking: `gen_chunks` (via Python 2 `xrange`) -/

/-- Number of elements of Python 2 `xrange(lo, hi, step)` for `step > 0`
(CPython `get_len_of_range`: `(hi - lo - 1) // step + 1` when `lo < hi`,
else `0`).  Callers with `step < 0` pass the mirrored arguments. -/
def rangeLen (lo hi step : Int) : Nat :=
  if lo < hi then (hi - lo - 1).toNat / step.toNat + 1 else 0

/-- Python 2 `xrange(lo, hi, step)` as a list; `step = 0` raises
`ValueError`, modelled as `none`. -/
def xrange (lo hi step : Int) : Option (List Int) :=
  if step = 0 then none
  else if 0 < step then
    some ((List.range (rangeLen lo hi step)).map
      (fun (i : Nat) => lo + step * (i : Int)))
  else
    some ((List.range (rangeLen hi lo (-step))).map
      (fun (i : Nat) => lo + step * (i : Int)))

/-- `gen_chunks(start, end, stride)`: `for i, num in enumerate(xrange(start,
end, stride)): yield num, num + stride`. -/
def gen_chunks (start e stride : Int) : Option (List (Int × Int)) :=
  (xrange start e stride).map (List.map (fun num => (num, num + stride)))

/-! ## Calendar chunking: `add_month`, `month_range`, `month_chunk` -/

/-- A `datetime.date` as used by this code: the day is always 1 (every
constructor call in the source is `dt.date(year, month, 1)` or comes from
parsing a `%Y-%m` string), so only year and month are carried. -/
structure Date where
  year : Int
  month : Int
  deriving DecidableEq, Repr

/-- `datetime.date(year, month, 1)`: raises `ValueError` (here `none`)
unless `MINYEAR = 1 ≤ year ≤ 9999 = MAXYEAR` and `1 ≤ month ≤ 12`. -/
def mkDate (y m : Int) : Option Date :=
  if 1 ≤ y ∧ y ≤ 9999 ∧ 1 ≤ m ∧ m ≤ 12 then some ⟨y, m⟩ else none

/-- The validity invariant `datetime.date` enforces. -/
def Date.Valid (d : Date) : Prop :=
  1 ≤ d.year ∧ d.year ≤ 9999 ∧ 1 ≤ d.month ∧ d.month ≤ 12

instance (d : Date) : Decidable d.Valid := by
  unfold Date.Valid
  infer_instance

/-- `add_month(date, months=1)`.  Python `/` and `%` on ints are floor
division and floor modulus, hence `Int.fdiv` / `Int.fmod`. -/
def add_month (date : Date) (months : Int) : Option Date :=
  let month := date.month + months
  if month > 12 then
    mkDate (date.year + Int.fdiv months 12 + 1) (Int.fmod month 12)
  else
    mkDate date.year month

/-- Python `<` on `datetime.date` (day fixed at 1): lexicographic on
(year, month). -/
def dateLt (a b : Date) : Bool :=
  a.year < b.year || (a.year == b.year && a.month < b.month)

/-- Months since year 0, the measure driving the `month_range` loop. -/
def dateMeasure (d : Date) : Int :=
  12 * d.year + d.month

/-- The `while item < end` loop of `month_range`, with explicit fuel.
For `stride ≥ 1` each `add_month` strictly increases `dateMeasure`, so the
fuel chosen by `month_range` never runs out where the Python loop
terminates; a failing `add_month` (Python `ValueError`) is `none`. -/
def month_rangeAux : Nat → Date → Date → Int → Option (List Date)
  | 0, _, _, _ => none
  | fuel + 1, item, e, stride =>
    if dateLt item e then
      match add_month item stride with
      | none => none
      | some next => (month_rangeAux fuel next e stride).map (item :: ·)
    else some []

/-- `month_range(start, end, stride=1)`: yields first-of-month dates from
`start` while `< end`, stepping by `add_month`.  (The source first rebuilds
`item = dt.date(start.year, start.month, 1)`, which is `start` itself since
days are fixed at 1.) -/
def month_range (start e : Date) (stride : Int) : Option (List Date) :=
  month_rangeAux ((dateMeasure e - dateMeasure start).toNat + 1) start e stride

/-- The `prev`-pairing loop of `month_chunk`: consecutive pairs of a list
(`prev` starts as `None`, which is falsy, so the first element opens the
first pair). -/
def pairsOfConsec {α : Type} : List α → List (α × α)
  | [] => []
  | [_] => []
  | a :: b :: rest => (a, b) :: pairsOfConsec (b :: rest)

/-- `month_chunk(start, end, stride=1)`: extends `end` by one month, then
pairs consecutive elements of `month_range`. -/
def month_chunk (start e : Date) (stride : Int) : Option (List (Date × Date)) :=
  match add_month e 1 with
  | none => none
  | some e2 => (month_range start e2 stride).map pairsOfConsec

/-! ## String-level dates: `month_chunk_str` and the `Chunk` record -/

/-- Decimal digits to a number (`int` semantics of the digit runs that
`time.strptime` captures). -/
def digitsToNat (cs : List Char) : Nat :=
  cs.foldl (fun acc c => 10 * acc + (c.toNat - 48)) 0

/-- Modelled from the Python standard library: `time.strptime(s, "%Y-%m")`
followed by `dt.date(*...[:3])` — the only format this repository uses
(`fmt` defaults to `"%Y-%m"` everywhere).  A string that is not
`digits-digits`, or whose fields leave `datetime.date`'s ranges, raises
`ValueError`, i.e. `none`. -/
def parseYM (s : String) : Option Date :=
  match s.data.splitOn '-' with
  | [ycs, mcs] =>
    if ycs ≠ [] ∧ ycs.all Char.isDigit ∧ mcs ≠ [] ∧ mcs.all Char.isDigit then
      mkDate (digitsToNat ycs) (digitsToNat mcs)
    else none
  | _ => none

/-- Left-pad with zeros (strftime zero padding). -/
def padZero (w : Nat) (s : String) : String :=
  if s.length < w then String.mk (List.replicate (w - s.length) '0') ++ s
  else s

/-- `date.strftime("%Y-%m-%d")` for a first-of-month date (day is 1). -/
def date_strftime (d : Date) : String :=
  padZero 4 (toString d.year) ++ "-" ++ padZero 2 (toString d.month) ++ "-01"

/-- `month_chunk_str(start, end, stride=1, fmt="%Y-%m",
out_fmt="%Y-%m-%d")`, at the default formats (the only ones used). -/
def month_chunk_str (start e : String) (stride : Int) :
    Option (List (String × String)) :=
  match parseYM start, parseYM e with
  | some sd, some ed =>
    (month_chunk sd ed stride).map
      (List.map (fun c => (date_strftime c.1, date_strftime c.2)))
  | _, _ => none

/-- The `Chunk` namedtuple `(start, end, suffix, sql_start, sql_end)`
(`end` is a Lean keyword, hence `end'`).  The integer chunker stores ints
in these slots and `str.format` renders them with `str()`; the rendered
decimal strings are stored here directly. -/
structure Chunk where
  start : String
  end' : String
  suffix : String
  sql_start : String
  sql_end : String
  deriving DecidableEq, Repr

/-- `IntChunker(start, end, stride)`. -/
structure IntChunker where
  start : Int
  end' : Int
  stride : Int

/-- `IntChunker.__iter__`: for each `(prev, num)` of `gen_chunks`, a Chunk
with suffix `'_{prev}'` and unquoted SQL literals. -/
def IntChunker.iter (c : IntChunker) : Option (List Chunk) :=
  (gen_chunks c.start c.end' c.stride).map (List.map (fun p =>
    { start := toString p.1, end' := toString p.2,
      suffix := "_" ++ toString p.1,
      sql_start := toString p.1, sql_end := toString p.2 }))

/-- `MonthChunker(start, end, fmt='%Y-%m')` at the default format. -/
structure MonthChunker where
  start : String
  end' : String

/-- `MonthChunker.__iter__`: suffix is `'_' + item[0][:-3]` (the start date
without its day part), SQL literals are single-quoted. -/
def MonthChunker.iter (c : MonthChunker) : Option (List Chunk) :=
  (month_chunk_str c.start c.end' 1).map (List.map (fun item =>
    { start := item.1, end' := item.2,
      suffix := "_" ++ item.1.dropRight 3,
      sql_start := "\x27" ++ item.1 ++ "\x27",
      sql_end := "\x27" ++ item.2 ++ "\x27" }))

/-- The two chunker variants a `RangePartitioner` can hold. -/
inductive Chunker where
  | int : IntChunker → Chunker
  | month : MonthChunker → Chunker

/-- `list(self.chunker)`: iterating either chunker variant. -/
def Chunker.iter : Chunker → Option (List Chunk)
  | .int c => c.iter
  | .month c => c.iter

/-! ## Python `str.format` (the plain-field subset this code uses) -/

/-- One literal or `\x7bname\x7d` field segment of a format string. -/
inductive Seg where
  | lit : String → Seg
  | key : String → Seg
  deriving DecidableEq, Repr

/-- Glue a literal character onto the segment list being built. -/
def consLit (c : Char) : List Seg → List Seg
  | .lit s :: rest => .lit (String.mk [c] ++ s) :: rest
  | segs => .lit (String.mk [c]) :: segs

/-- Single-pass scanner behind `parseTemplate`: the flag says whether the
scanner is inside a `\x7b...\x7d` replacement field, the first list holds
the field's name read so far (reversed).  An unterminated field or a stray
closing brace raises (`none`). -/
def parseTemplateAux : Bool → List Char → List Char → Option (List Seg)
  | false, _, [] => some []
  | false, _, c :: rest =>
    if c = '\x7b' then parseTemplateAux true [] rest
    else if c = '\x7d' then none
    else (parseTemplateAux false [] rest).map (consLit c)
  | true, _, [] => none
  | true, acc, c :: rest =>
    if c = '\x7d' then
      (parseTemplateAux false [] rest).map
        (fun segs => Seg.key (String.mk acc.reverse) :: segs)
    else parseTemplateAux true (c :: acc) rest

/-- Parse a `str.format` template into literal and `\x7bname\x7d` field
segments.  Only the plain-name subset this repository uses is modelled (no
`\x7b\x7b` escapes, no conversions or format specs). -/
def parseTemplate (cs : List Char) : Option (List Seg) :=
  parseTemplateAux false [] cs

/-- Keyword-argument lookup for `template.format(**dict(...))`. -/
def lookupEnv (env : List (String × String)) (k : String) : Option String :=
  (env.find? (fun p => p.1 == k)).map (·.2)

/-- Substitute the parsed segments; a missing key is `KeyError` (`none`). -/
def renderSegs (env : List (String × String)) : List Seg → Option String
  | [] => some ""
  | .lit s :: rest => (renderSegs env rest).map (s ++ ·)
  | .key k :: rest =>
    match lookupEnv env k with
    | none => none
    | some v => (renderSegs env rest).map (v ++ ·)

/-- `t.format(**env)`. -/
def formatPy (t : String) (env : List (String × String)) : Option String :=
  match parseTemplate t.data with
  | none => none
  | some segs => renderSegs env segs

/-! ## `RangePartitioner` -/

/-- Python truthiness of an optional string (`None` and `''` are falsy). -/
def truthyS : Option String → Bool
  | none => false
  | some s => !s.isEmpty

/-- `str()` of a possibly-`None` value (`str(None) = 'None'`), as
`str.format` applies to the `pos_item` slot. -/
def optStr : Option String → String
  | none => "None"
  | some s => s

/-- Fallible map over a list, aborting on the first failure (the first
Python exception propagates out of the loop). -/
def traverseOpt {α β : Type} (f : α → Option β) : List α → Option (List β)
  | [] => some []
  | a :: rest =>
    match f a with
    | none => none
    | some b => (traverseOpt f rest).map (b :: ·)

/-- `RangePartitioner(chunker, table_name, column,
index_columns_list=None)`. -/
structure RangePartitioner where
  chunker : Chunker
  table_name : String
  column : String
  index_columns_list : Option (List String) := none

/-- `RangePartitioner._sql_gen`, up to the final `'\n'.join`: the `stmt`
list it accumulates, with `none` for any exception escaping the call
(chunker errors, `str.format` `KeyError`). -/
def RangePartitioner.sql_gen_stmts (p : RangePartitioner)
    (template startT endT first_item middle_items last_item : Option String)
    (do_index : Bool) : Option (List String) :=
  let stmt0 : Option (List String) :=
    if truthyS startT then
      (formatPy (optStr startT) [("master_table_name", p.table_name)]).map
        (fun s => [s])
    else some []
  match stmt0 with
  | none => none
  | some stmts =>
    match p.chunker.iter with
    | none => none
    | some chunks =>
      let cols : List String :=
        match p.index_columns_list with
        | some l => if l.isEmpty then [p.column] else l
        | none => [p.column]
      let body : Option (List String) :=
        if truthyS template then
          (traverseOpt (fun (ic : Nat × Chunk) =>
            let table_name := p.table_name ++ ic.2.suffix
            let pos_item : Option String :=
              if ic.1 = 0 ∧ truthyS first_item then first_item
              else if ic.1 = chunks.length - 1 ∧ truthyS last_item then
                last_item
              else middle_items
            if do_index then
              traverseOpt (fun (jc : Nat × String) =>
                let index_name := table_name ++ "_" ++ toString jc.1 ++ "_index"
                let col_str := String.intercalate "," cols
                formatPy (optStr template)
                  [("column", p.column), ("start", ic.2.sql_start),
                   ("end", ic.2.sql_end), ("master_table_name", p.table_name),
                   ("table_name", table_name), ("pos_item", optStr pos_item),
                   ("index_name", index_name), ("index_cols", col_str)])
                (cols.enumFrom 0)
            else
              (formatPy (optStr template)
                [("column", p.column), ("start", ic.2.sql_start),
                 ("end", ic.2.sql_end), ("master_table_name", p.table_name),
                 ("table_name", table_name),
                 ("pos_item", optStr pos_item)]).map (fun s => [s]))
            (chunks.enumFrom 0)).map List.flatten
        else some []
      match body with
      | none => none
      | some bodyStmts =>
        if truthyS endT then
          (formatPy (optStr endT)
            [("column", p.column),
             ("master_table_name", p.table_name)]).map
            (fun e2 => stmts ++ bodyStmts ++ [e2])
        else some (stmts ++ bodyStmts)

/-- `_sql_gen`'s return value: `'\n'.join(stmt)`. -/
def RangePartitioner.sql_gen (p : RangePartitioner)
    (template startT endT first_item middle_items last_item : Option String)
    (do_index : Bool) : Option String :=
  (p.sql_gen_stmts template startT endT first_item middle_items last_item
    do_index).map (String.intercalate "\n")

/-! ## The statement templates and rendering operations -/

/-- Template of `create_ddl`. -/
def createTemp : String :=
  "CREATE TABLE \x7btable_name\x7d (\n    CHECK ( \x7bcolumn\x7d >= \x7bstart\x7d AND \x7bcolumn\x7d < \x7bend\x7d )\n) INHERITS (\x7bmaster_table_name\x7d);"

/-- Template of `drop_ddl`. -/
def dropTemp : String := "DROP TABLE \x7btable_name\x7d;"

/-- Per-chunk template of `function_code`. -/
def funcTemp : String :=
  "    \x7bpos_item\x7d ( NEW.\x7bcolumn\x7d >= \x7bstart\x7d AND NEW.\x7bcolumn\x7d < \x7bend\x7d ) THEN\n        INSERT INTO \x7btable_name\x7d VALUES (NEW.*);"

/-- Preamble template of `function_code`. -/
def funcStart : String :=
  "CREATE OR REPLACE FUNCTION \x7bmaster_table_name\x7d_insert_function()\nRETURNS TRIGGER AS $$\nBEGIN"

/-- Postamble template of `function_code`. -/
def funcEnd : String :=
  "    ELSE\n        RAISE EXCEPTION \x27\x7bcolumn\x7d out of range.  Fix the \x7bmaster_table_name\x7d_insert_function() function!\x27;\n    END IF;\n    RETURN NULL;\nEND;\n$$\nLANGUAGE plpgsql;"

/-- Template of `trigger_code`. -/
def trigTemp : String :=
  "CREATE TRIGGER insert_\x7bmaster_table_name\x7d_trigger\n    BEFORE INSERT ON \x7bmaster_table_name\x7d\n    FOR EACH ROW EXECUTE PROCEDURE \x7bmaster_table_name\x7d_insert_function();"

/-- Template of `drop_trigger_code`. -/
def dropTrigTemp : String :=
  "DROP TRIGGER insert_\x7bmaster_table_name\x7d_trigger ON \x7bmaster_table_name\x7d;"

/-- Template of `create_idx_ddl`. -/
def idxCreateTemp : String :=
  "CREATE INDEX \x7bindex_name\x7d ON \x7btable_name\x7d (\x7bindex_cols\x7d);"

/-- Template of `drop_idx_ddl`. -/
def idxDropTemp : String := "DROP INDEX \x7bindex_name\x7d;"

/-- `RangePartitioner.create_ddl`. -/
def RangePartitioner.create_ddl (p : RangePartitioner) : Option String :=
  p.sql_gen (some createTemp) none none none none none false

/-- `RangePartitioner.drop_ddl`. -/
def RangePartitioner.drop_ddl (p : RangePartitioner) : Option String :=
  p.sql_gen (some dropTemp) none none none none none false

/-- `RangePartitioner.function_code`. -/
def RangePartitioner.function_code (p : RangePartitioner) : Option String :=
  p.sql_gen (some funcTemp) (some funcStart) (some funcEnd)
    (some "IF") (some "ELSIF") none false

/-- `RangePartitioner.trigger_code`. -/
def RangePartitioner.trigger_code (p : RangePartitioner) : Option String :=
  p.sql_gen none (some trigTemp) none none none none false

/-- `RangePartitioner.drop_trigger_code`. -/
def RangePartitioner.drop_trigger_code (p : RangePartitioner) : Option String :=
  p.sql_gen none (some dropTrigTemp) none none none none false

/-- `RangePartitioner.create_idx_ddl`. -/
def RangePartitioner.create_idx_ddl (p : RangePartitioner) : Option String :=
  p.sql_gen (some idxCreateTemp) none none none none none true

/-- `RangePartitioner.drop_idx_ddl`. -/
def RangePartitioner.drop_idx_ddl (p : RangePartitioner) : Option String :=
  p.sql_gen (some idxDropTemp) none none none none none true

/-- `RangePartitioner.sql(sql, start=None, end=None)`: arbitrary caller
template applied per chunk. -/
def RangePartitioner.sql (p : RangePartitioner) (s : String)
    (startT endT : Option String) : Option String :=
  p.sql_gen (some s) startT endT none none none false

/-- The list-of-statements view of each operation, for structural claims. -/
def RangePartitioner.create_idx_stmts (p : RangePartitioner) :
    Option (List String) :=
  p.sql_gen_stmts (some idxCreateTemp) none none none none none true

/-- The list-of-statements view of `drop_idx_ddl`. -/
def RangePartitioner.drop_idx_stmts (p : RangePartitioner) :
    Option (List String) :=
  p.sql_gen_stmts (some idxDropTemp) none none none none none true

/-- The list-of-statements view of `function_code`. -/
def RangePartitioner.function_code_stmts (p : RangePartitioner) :
    Option (List String) :=
  p.sql_gen_stmts (some funcTemp) (some funcStart) (some funcEnd)
    (some "IF") (some "ELSIF") none false

/-- `IntPartitioner(table_name, column, start, end, stride=1)`. -/
def IntPartitioner (table_name column : String) (start e stride : Int) :
    RangePartitioner :=
  { chunker := .int ⟨start, e, stride⟩, table_name := table_name,
    column := column }

/-- `MonthPartitioner(table_name, column, start, end, fmt="%Y-%m")`. -/
def MonthPartitioner (table_name column : String) (start e : String) :
    RangePartitioner :=
  { chunker := .month ⟨start, e⟩, table_name := table_name, column := column }

/-! ## Derived forms used to state the claims -/

/-- The partition table name `'{0}{1}'.format(self.table_name,
chunk.suffix)`. -/
def partTable (p : RangePartitioner) (c : Chunk) : String :=
  p.table_name ++ c.suffix

/-- `cols = self.index_columns_list or [self.column]`. -/
def effectiveCols (p : RangePartitioner) : List String :=
  match p.index_columns_list with
  | some l => if l.isEmpty then [p.column] else l
  | none => [p.column]

/-- `index_name = '{0}_{1}_index'.format(table_name, j)` with `j` the
zero-based position of the index-column group. -/
def indexNameOf (p : RangePartitioner) (c : Chunk) (j : Nat) : String :=
  partTable p c ++ "_" ++ toString j ++ "_index"

/-- The rendered preamble of `function_code`. -/
def funcPre (mtn : String) : String :=
  "CREATE OR REPLACE FUNCTION " ++ mtn ++
    "_insert_function()\nRETURNS TRIGGER AS $$\nBEGIN"

/-- The rendered postamble of `function_code`. -/
def funcPost (col mtn : String) : String :=
  "    ELSE\n        RAISE EXCEPTION \x27" ++ col ++
    " out of range.  Fix the " ++ mtn ++
    "_insert_function() function!\x27;\n    END IF;\n    RETURN NULL;\nEND;\n$$\nLANGUAGE plpgsql;"

/-- One rendered branch of `function_code` with position marker `pos`. -/
def funcBranch (pos : String) (p : RangePartitioner) (c : Chunk) : String :=
  "    " ++ pos ++ " ( NEW." ++ p.column ++ " >= " ++ c.sql_start ++
    " AND NEW." ++ p.column ++ " < " ++ c.sql_end ++
    " ) THEN\n        INSERT INTO " ++ partTable p c ++ " VALUES (NEW.*);"

/-- The rendered `trigger_code` statement. -/
def trigStmt (mtn : String) : String :=
  "CREATE TRIGGER insert_" ++ mtn ++ "_trigger\n    BEFORE INSERT ON " ++
    mtn ++ "\n    FOR EACH ROW EXECUTE PROCEDURE " ++ mtn ++
    "_insert_function();"

/-- The rendered `drop_trigger_code` statement. -/
def dropTrigStmt (mtn : String) : String :=
  "DROP TRIGGER insert_" ++ mtn ++ "_trigger ON " ++ mtn ++ ";"

/-- One rendered `create_idx_ddl` statement (note: the column list is the
comma-join of the whole `effectiveCols`, whatever the group index). -/
def idxCreateStmt (p : RangePartitioner) (c : Chunk) (j : Nat) : String :=
  "CREATE INDEX " ++ indexNameOf p c j ++ " ON " ++ partTable p c ++
    " (" ++ String.intercalate "," (effectiveCols p) ++ ");"

/-- One rendered `drop_idx_ddl` statement. -/
def idxDropStmt (p : RangePartitioner) (c : Chunk) (j : Nat) : String :=
  "DROP INDEX " ++ indexNameOf p c j ++ ";"

/-- One rendered `create_ddl` statement. -/
def createStmt (p : RangePartitioner) (c : Chunk) : String :=
  "CREATE TABLE " ++ partTable p c ++ " (\n    CHECK ( " ++ p.column ++
    " >= " ++ c.sql_start ++ " AND " ++ p.column ++ " < " ++ c.sql_end ++
    " )\n) INHERITS (" ++ p.table_name ++ ");"

/-- One rendered `drop_ddl` statement. -/
def dropStmt (p : RangePartitioner) (c : Chunk) : String :=
  "DROP TABLE " ++ partTable p c ++ ";"

/-- The doctest partitioner `IntPartitioner('test_part', 'adweekid', 0, 2)`. -/
def sampleIntP : RangePartitioner := IntPartitioner "test_part" "adweekid" 0 2 1

/-- The chunks `sampleIntP`'s chunker yields. -/
def sampleChunks : List Chunk :=
  [⟨"0", "1", "_0", "0", "1"⟩, ⟨"1", "2", "_1", "1", "2"⟩]

/-- A partitioner with a two-group index-column list. -/
def sampleIdxP : RangePartitioner :=
  { chunker := Chunker.int ⟨0, 1, 1⟩, table_name := "t", column := "c",
    index_columns_list := some ["a", "b"] }

/-- The single chunk `sampleIdxP`'s chunker yields. -/
def sampleIdxChunks : List Chunk := [⟨"0", "1", "_0", "0", "1"⟩]

/-- String prefix test on the underlying character lists (used to count
`IF`/`ELSIF` branch lines). -/
def strStartsWith (pre s : String) : Bool :=
  pre.data.isPrefixOf s.data

end PgPartition

namespace PgPartition

/-! ### Closed form and arithmetic facts for `gen_chunks`, positive stride -/

theorem gen_chunks_pos_eq (start e s : Int) (hs : 0 < s) :
    gen_chunks start e s =
      some ((List.range (rangeLen start e s)).map
        (fun (i : Nat) => (start + s * (i : Int), start + s * ((i : Int) + 1)))) := by
  unfold gen_chunks xrange
  rw [if_neg (by omega), if_pos hs]
  rw [Option.map_some', List.map_map]
  refine congrArg some (List.map_congr_left ?_)
  intro i _
  simp only [Function.comp_apply, Prod.mk.injEq, true_and]
  ring

theorem rangeLen_eq_zero_iff (lo hi step : Int) :
    rangeLen lo hi step = 0 ↔ hi ≤ lo := by
  unfold rangeLen
  by_cases h : lo < hi
  · rw [if_pos h]
    simp only [Nat.succ_ne_zero, false_iff]
    omega
  · rw [if_neg h]
    simp only [true_iff]
    omega

theorem nat_div_bounds (d sn : Nat) (h : 0 < sn) :
    sn * (d / sn) ≤ d ∧ d < sn * (d / sn + 1) := by
  have hmod := Nat.div_add_mod d sn
  have hmlt : d % sn < sn := Nat.mod_lt d h
  have hsucc : sn * (d / sn + 1) = sn * (d / sn) + sn := by ring
  omega

/-- With `n = rangeLen lo hi step` for a non-empty ascending range, the last
element `lo + step * (n - 1)` is `< hi` and the next boundary `lo + step * n`
is `≥ hi`. -/
theorem rangeLen_bounds (lo hi step : Int) (hlt : lo < hi) (hs : 0 < step) :
    lo + step * ((rangeLen lo hi step - 1 : Nat) : Int) < hi ∧
      hi ≤ lo + step * ((rangeLen lo hi step : Nat) : Int) := by
  have hsn : ((step.toNat : Int)) = step := Int.toNat_of_nonneg (le_of_lt hs)
  have hd : (((hi - lo - 1).toNat : Int)) = hi - lo - 1 :=
    Int.toNat_of_nonneg (by omega)
  have hsn0 : 0 < step.toNat := by omega
  obtain ⟨hle, hgt⟩ := nat_div_bounds (hi - lo - 1).toNat step.toNat hsn0
  unfold rangeLen
  rw [if_pos hlt]
  rw [Nat.add_sub_cancel]
  set q : Nat := (hi - lo - 1).toNat / step.toNat with hq
  have hle' : step * (q : Int) ≤ hi - lo - 1 := by
    have h2 := Int.ofNat_le.mpr hle
    push_cast at h2
    rw [hsn, hd] at h2
    linarith
  have hgt' : hi - lo - 1 < step * ((q : Int) + 1) := by
    have h2 := Int.ofNat_lt.mpr hgt
    push_cast at h2
    rw [hsn, hd] at h2
    linarith
  constructor
  · linarith
  · have e2 : ((q + 1 : Nat) : Int) = (q : Int) + 1 := by push_cast; ring
    rw [e2]
    linarith

theorem getLast?_range_map {α : Type} (f : Nat → α) (n : Nat) (h : 0 < n) :
    ((List.range n).map f).getLast? = some (f (n - 1)) := by
  rw [List.getLast?_eq_getElem?]
  simp only [List.length_map, List.length_range]
  simp [List.getElem?_map, List.getElem?_range, Nat.sub_lt h Nat.one_pos]


/-- C2: for every integer domain `[start, e)` with `start < e` and stride
`s > 0`, `gen_chunks` emits exactly the pairs `(v, v + s)` for the boundaries
`v = start, start + s, …` with `v < e`; every chunk's width is exactly `s`;
their union covers `[start, e)` with no gaps; the last chunk's end is the
first stride boundary at or past `e` (so it never exceeds the first boundary
strictly past `e`); concretely `gen_chunks 1 10 3 = [(1,4),(4,7),(7,10)]`. -/
theorem gen_chunks_coverage (start e s : Int) (hse : start < e) (hs : 0 < s) :
    ∃ l, gen_chunks start e s = some l ∧
      l = (List.range (rangeLen start e s)).map
            (fun (i : Nat) => (start + s * (i : Int), start + s * ((i : Int) + 1))) ∧
      (∀ p ∈ l, start ≤ p.1 ∧ p.1 < e ∧ (s ∣ p.1 - start) ∧ p.2 = p.1 + s) ∧
      (∀ v, start ≤ v → v < e → (s ∣ v - start) → (v, v + s) ∈ l) ∧
      (∀ x, start ≤ x → x < e → ∃ p ∈ l, p.1 ≤ x ∧ x < p.2) ∧
      (∀ p, l.getLast? = some p →
        e ≤ p.2 ∧ p.2 < e + s ∧ (s ∣ p.2 - start)) ∧
      gen_chunks 1 10 3 = some [(1, 4), (4, 7), (7, 10)] := by
  have hn0 : 0 < rangeLen start e s := by
    rcases Nat.eq_zero_or_pos (rangeLen start e s) with h | h
    · exact absurd ((rangeLen_eq_zero_iff start e s).mp h) (by omega)
    · exact h
  obtain ⟨hlast_lt, hnext_ge⟩ := rangeLen_bounds start e s hse hs
  set n : Nat := rangeLen start e s with hn
  refine ⟨_, gen_chunks_pos_eq start e s hs, rfl, ?_, ?_, ?_, ?_, by decide⟩
  · -- every emitted chunk
    intro p hp
    obtain ⟨i, hi, rfl⟩ := List.mem_map.mp hp
    have hi' : i < n := List.mem_range.mp hi
    have hii : (i : Int) ≤ ((n - 1 : Nat) : Int) := by
      have : i ≤ n - 1 := by omega
      exact_mod_cast this
    have hmul : s * (i : Int) ≤ s * ((n - 1 : Nat) : Int) :=
      mul_le_mul_of_nonneg_left hii (le_of_lt hs)
    have hi0 : (0 : Int) ≤ (i : Int) := Int.ofNat_nonneg i
    refine ⟨by dsimp only; nlinarith, by dsimp only; linarith,
      ⟨(i : Int), by dsimp only; ring⟩, by dsimp only; ring⟩
  · -- converse: every boundary pair is emitted
    intro v hv1 hv2 ⟨k, hk⟩
    have hk0 : 0 ≤ k := by nlinarith
    have hvk : v = start + s * (k.toNat : Int) := by
      rw [Int.toNat_of_nonneg hk0]; omega
    have hkn : k.toNat < n := by
      by_contra hge
      push_neg at hge
      have : ((n : Nat) : Int) ≤ (k.toNat : Int) := by exact_mod_cast hge
      have : start + s * ((n : Nat) : Int) ≤ start + s * (k.toNat : Int) := by
        have := mul_le_mul_of_nonneg_left this (le_of_lt hs)
        linarith
      linarith [hvk ▸ hv2]
    refine List.mem_map.mpr ⟨k.toNat, List.mem_range.mpr hkn, ?_⟩
    have : v + s = start + s * ((k.toNat : Int) + 1) := by rw [hvk]; ring
    simp only [Prod.mk.injEq]
    exact ⟨hvk.symm, this.symm⟩
  · -- coverage of [start, e)
    intro x hx1 hx2
    have hd : (((x - start).toNat : Int)) = x - start :=
      Int.toNat_of_nonneg (by omega)
    have hsn : ((s.toNat : Int)) = s := Int.toNat_of_nonneg (le_of_lt hs)
    obtain ⟨hle, hgt⟩ := nat_div_bounds (x - start).toNat s.toNat (by omega)
    set i : Nat := (x - start).toNat / s.toNat with hi
    have hle' : s * (i : Int) ≤ x - start := by
      have h2 := Int.ofNat_le.mpr hle
      push_cast at h2
      rw [hsn, hd] at h2
      linarith
    have hgt' : x - start < s * ((i : Int) + 1) := by
      have h2 := Int.ofNat_lt.mpr hgt
      push_cast at h2
      rw [hsn, hd] at h2
      linarith
    have hin : i < n := by
      have hmono : (x - start).toNat ≤ (e - start - 1).toNat := by omega
      have hdiv := Nat.div_le_div_right (c := s.toNat) hmono
      have : i ≤ (e - start - 1).toNat / s.toNat := hdiv
      have hnval : n = (e - start - 1).toNat / s.toNat + 1 := by
        rw [hn]; unfold rangeLen; rw [if_pos hse]
      omega
    refine ⟨(start + s * (i : Int), start + s * ((i : Int) + 1)),
      List.mem_map.mpr ⟨i, List.mem_range.mpr hin, rfl⟩, by dsimp only; linarith,
      by dsimp only; linarith⟩
  · -- the last chunk's end
    intro p hp
    rw [getLast?_range_map _ _ hn0] at hp
    have hp' : p = (start + s * ((n - 1 : Nat) : Int),
        start + s * (((n - 1 : Nat) : Int) + 1)) := by
      injection hp with h
      exact h.symm
    have hcast : ((n - 1 : Nat) : Int) + 1 = ((n : Nat) : Int) := by
      have : (1 : Nat) ≤ n := hn0
      push_cast [Nat.cast_sub this]
      ring
    subst hp'
    refine ⟨?_, ?_, ?_⟩
    · dsimp only; rw [hcast]; linarith
    · dsimp only; rw [hcast]
      have : s * ((n : Nat) : Int) = s * ((n - 1 : Nat) : Int) + s := by
        rw [← hcast]; ring
      linarith
    · exact ⟨((n - 1 : Nat) : Int) + 1, by dsimp only; ring⟩

/-! ### Helpers for the rendering engine -/

theorem truthyS_none_eq : truthyS none = false := rfl

theorem traverseOpt_congr_some {α β : Type} (f : α → Option β) (g : α → β)
    (l : List α) (h : ∀ a ∈ l, f a = some (g a)) :
    traverseOpt f l = some (l.map g) := by
  induction l with
  | nil => rfl
  | cons a rest ih =>
    have ha := h a (List.mem_cons_self a rest)
    simp only [traverseOpt, ha, List.map_cons]
    rw [ih (fun b hb => h b (List.mem_cons_of_mem a hb))]
    rfl

theorem flatten_map_singleton {α β : Type} (g : α → β) (l : List α) :
    (l.map (fun a => [g a])).flatten = l.map g := by
  induction l with
  | nil => rfl
  | cons a rest ih => simp only [List.map_cons, List.flatten_cons, ih,
      List.singleton_append]

theorem map_enumFrom_snd {α β : Type} (g : α → β) (l : List α) :
    ∀ k, (List.enumFrom k l).map (fun ic => g ic.2) = l.map g := by
  induction l with
  | nil => intro k; rfl
  | cons a rest ih => intro k; simp only [List.enumFrom, List.map_cons, ih]

theorem map_enumFrom_fst {β : Type} (h : Nat → β) (l : List String) :
    ∀ k, (List.enumFrom k l).map (fun jc => h jc.1) =
      (List.range l.length).map (fun j => h (k + j)) := by
  induction l with
  | nil => intro k; rfl
  | cons a rest ih =>
    intro k
    simp only [List.enumFrom, List.map_cons, List.length_cons,
      List.range_succ_eq_map, List.map_map]
    refine congrArg₂ _ (by rw [Nat.add_zero]) ?_
    rw [ih (k + 1)]
    refine List.map_congr_left ?_
    intro j _
    simp only [Function.comp_apply]
    refine congrArg h (by omega)

theorem map_enumFrom_pos {α β : Type} (g : Nat × α → β) (gpos : α → β)
    (l : List α) :
    ∀ k, k ≠ 0 → (∀ i a, i ≠ 0 → g (i, a) = gpos a) →
      (List.enumFrom k l).map g = l.map gpos := by
  induction l with
  | nil => intro k _ _; rfl
  | cons a rest ih =>
    intro k hk hg
    simp only [List.enumFrom, List.map_cons]
    rw [hg k a hk, ih (k + 1) (by omega) hg]

theorem optStr_some (s : String) : optStr (some s) = s := rfl

theorem enumFrom_snd_mem {α : Type} {x : Nat × α} {l : List α} :
    ∀ {k}, x ∈ l.enumFrom k → x.2 ∈ l := by
  induction l with
  | nil => intro k h; simp [List.enumFrom] at h
  | cons a rest ih =>
    intro k h
    rw [List.enumFrom, List.mem_cons] at h
    rcases h with h | h
    · subst h; exact List.mem_cons_self a rest
    · exact List.mem_cons_of_mem a (ih h)

theorem enumFrom_fst_le {α : Type} {x : Nat × α} {l : List α} :
    ∀ {k}, x ∈ l.enumFrom k → k ≤ x.1 := by
  induction l with
  | nil => intro k h; simp [List.enumFrom] at h
  | cons a rest ih =>
    intro k h
    rw [List.enumFrom, List.mem_cons] at h
    rcases h with h | h
    · subst h; exact le_refl _
    · exact le_of_lt (lt_of_lt_of_le (Nat.lt_succ_self k) (ih h))

/-! ### Evaluated `str.format` calls, one per template -/

theorem formatPy_createTemp (col st en mtn tn pi : String) :
    formatPy createTemp
      [("column", col), ("start", st), ("end", en),
       ("master_table_name", mtn), ("table_name", tn), ("pos_item", pi)] =
      some ("CREATE TABLE " ++ tn ++ " (\n    CHECK ( " ++ col ++ " >= " ++
        st ++ " AND " ++ col ++ " < " ++ en ++ " )\n) INHERITS (" ++ mtn
        ++ ");") := by
  unfold formatPy
  rw [show parseTemplate createTemp.data =
    some [Seg.lit "CREATE TABLE ", Seg.key "table_name",
      Seg.lit " (\n    CHECK ( ", Seg.key "column", Seg.lit " >= ",
      Seg.key "start", Seg.lit " AND ", Seg.key "column", Seg.lit " < ",
      Seg.key "end", Seg.lit " )\n) INHERITS (",
      Seg.key "master_table_name", Seg.lit ");"] from rfl]
  simp [renderSegs, lookupEnv, List.find?, String.append_assoc]

theorem formatPy_dropTemp (col st en mtn tn pi : String) :
    formatPy dropTemp
      [("column", col), ("start", st), ("end", en),
       ("master_table_name", mtn), ("table_name", tn), ("pos_item", pi)] =
      some ("DROP TABLE " ++ tn ++ ";") := by
  unfold formatPy
  rw [show parseTemplate dropTemp.data =
    some [Seg.lit "DROP TABLE ", Seg.key "table_name", Seg.lit ";"]
    from rfl]
  simp [renderSegs, lookupEnv, List.find?, String.append_assoc]

theorem formatPy_funcTemp (col st en mtn tn pi : String) :
    formatPy funcTemp
      [("column", col), ("start", st), ("end", en),
       ("master_table_name", mtn), ("table_name", tn), ("pos_item", pi)] =
      some ("    " ++ pi ++ " ( NEW." ++ col ++ " >= " ++ st ++
        " AND NEW." ++ col ++ " < " ++ en ++
        " ) THEN\n        INSERT INTO " ++ tn ++ " VALUES (NEW.*);") := by
  unfold formatPy
  rw [show parseTemplate funcTemp.data =
    some [Seg.lit "    ", Seg.key "pos_item", Seg.lit " ( NEW.",
      Seg.key "column", Seg.lit " >= ", Seg.key "start",
      Seg.lit " AND NEW.", Seg.key "column", Seg.lit " < ", Seg.key "end",
      Seg.lit " ) THEN\n        INSERT INTO ", Seg.key "table_name",
      Seg.lit " VALUES (NEW.*);"] from rfl]
  simp [renderSegs, lookupEnv, List.find?, String.append_assoc]

theorem formatPy_funcStart (mtn : String) :
    formatPy funcStart [("master_table_name", mtn)] =
      some (funcPre mtn) := by
  unfold formatPy funcPre
  rw [show parseTemplate funcStart.data =
    some [Seg.lit "CREATE OR REPLACE FUNCTION ",
      Seg.key "master_table_name",
      Seg.lit "_insert_function()\nRETURNS TRIGGER AS $$\nBEGIN"]
    from rfl]
  simp [renderSegs, lookupEnv, List.find?, String.append_assoc]

theorem formatPy_funcEnd (col mtn : String) :
    formatPy funcEnd [("column", col), ("master_table_name", mtn)] =
      some (funcPost col mtn) := by
  unfold formatPy funcPost
  rw [show parseTemplate funcEnd.data =
    some [Seg.lit "    ELSE\n        RAISE EXCEPTION \x27",
      Seg.key "column", Seg.lit " out of range.  Fix the ",
      Seg.key "master_table_name",
      Seg.lit "_insert_function() function!\x27;\n    END IF;\n    RETURN NULL;\nEND;\n$$\nLANGUAGE plpgsql;"]
    from rfl]
  simp [renderSegs, lookupEnv, List.find?, String.append_assoc]

theorem formatPy_trigTemp (mtn : String) :
    formatPy trigTemp [("master_table_name", mtn)] =
      some (trigStmt mtn) := by
  unfold formatPy trigStmt
  rw [show parseTemplate trigTemp.data =
    some [Seg.lit "CREATE TRIGGER insert_", Seg.key "master_table_name",
      Seg.lit "_trigger\n    BEFORE INSERT ON ",
      Seg.key "master_table_name",
      Seg.lit "\n    FOR EACH ROW EXECUTE PROCEDURE ",
      Seg.key "master_table_name", Seg.lit "_insert_function();"]
    from rfl]
  simp [renderSegs, lookupEnv, List.find?, String.append_assoc]

theorem formatPy_dropTrigTemp (mtn : String) :
    formatPy dropTrigTemp [("master_table_name", mtn)] =
      some (dropTrigStmt mtn) := by
  unfold formatPy dropTrigStmt
  rw [show parseTemplate dropTrigTemp.data =
    some [Seg.lit "DROP TRIGGER insert_", Seg.key "master_table_name",
      Seg.lit "_trigger ON ", Seg.key "master_table_name", Seg.lit ";"]
    from rfl]
  simp [renderSegs, lookupEnv, List.find?, String.append_assoc]

theorem formatPy_idxCreateTemp (col st en mtn tn pi ixn ixc : String) :
    formatPy idxCreateTemp
      [("column", col), ("start", st), ("end", en),
       ("master_table_name", mtn), ("table_name", tn), ("pos_item", pi),
       ("index_name", ixn), ("index_cols", ixc)] =
      some ("CREATE INDEX " ++ ixn ++ " ON " ++ tn ++ " (" ++ ixc ++ ");") := by
  unfold formatPy
  rw [show parseTemplate idxCreateTemp.data =
    some [Seg.lit "CREATE INDEX ", Seg.key "index_name", Seg.lit " ON ",
      Seg.key "table_name", Seg.lit " (", Seg.key "index_cols",
      Seg.lit ");"] from rfl]
  simp [renderSegs, lookupEnv, List.find?, String.append_assoc]

theorem formatPy_idxDropTemp (col st en mtn tn pi ixn ixc : String) :
    formatPy idxDropTemp
      [("column", col), ("start", st), ("end", en),
       ("master_table_name", mtn), ("table_name", tn), ("pos_item", pi),
       ("index_name", ixn), ("index_cols", ixc)] =
      some ("DROP INDEX " ++ ixn ++ ";") := by
  unfold formatPy
  rw [show parseTemplate idxDropTemp.data =
    some [Seg.lit "DROP INDEX ", Seg.key "index_name", Seg.lit ";"]
    from rfl]
  simp [renderSegs, lookupEnv, List.find?, String.append_assoc]

/-! ### Structure of `_sql_gen`'s statement list, per calling pattern -/

/-- `_sql_gen` with only a per-chunk template (no preamble/postamble, no
index loop): one formatted statement per chunk, in chunk order. -/
theorem sql_gen_stmts_body (p : RangePartitioner) (chunks : List Chunk)
    (hiter : p.chunker.iter = some chunks) (t : String)
    (ht : truthyS (some t) = true)
    (first middle : Option String) (g : Option String → Chunk → String)
    (hg : ∀ pos c, c ∈ chunks → formatPy t
      [("column", p.column), ("start", c.sql_start), ("end", c.sql_end),
       ("master_table_name", p.table_name),
       ("table_name", p.table_name ++ c.suffix),
       ("pos_item", optStr pos)] = some (g pos c)) :
    p.sql_gen_stmts (some t) none none first middle none false =
      some ((chunks.enumFrom 0).map (fun ic =>
        g (if ic.1 = 0 ∧ truthyS first = true then first else middle)
          ic.2)) := by
  unfold RangePartitioner.sql_gen_stmts
  rw [hiter]
  simp only [truthyS_none_eq, Bool.false_eq_true, if_false, ht, if_true,
    and_false]
  rw [traverseOpt_congr_some _
    (fun ic : Nat × Chunk =>
      [g (if ic.1 = 0 ∧ truthyS first = true then first else middle) ic.2])
    _ ?_]
  · rw [Option.map_some', flatten_map_singleton]
    simp only [List.nil_append]
  · intro ic hic
    have hmem : ic.2 ∈ chunks := enumFrom_snd_mem hic
    dsimp only
    simp only [optStr_some]
    by_cases hpos : ic.1 = 0 ∧ truthyS first = true
    · rw [if_pos hpos, hg first ic.2 hmem]
      rfl
    · rw [if_neg hpos, hg middle ic.2 hmem]
      rfl

/-- `_sql_gen` with `do_index=True`: per chunk, one formatted statement per
index-column group, flattened in order. -/
theorem sql_gen_stmts_idx (p : RangePartitioner) (chunks : List Chunk)
    (hiter : p.chunker.iter = some chunks) (t : String)
    (ht : truthyS (some t) = true) (g : Chunk → Nat → String)
    (hg : ∀ c ∈ chunks, ∀ (j : Nat), formatPy t
      [("column", p.column), ("start", c.sql_start), ("end", c.sql_end),
       ("master_table_name", p.table_name),
       ("table_name", p.table_name ++ c.suffix),
       ("pos_item", optStr none),
       ("index_name",
         p.table_name ++ c.suffix ++ "_" ++ toString j ++ "_index"),
       ("index_cols", String.intercalate "," (effectiveCols p))] =
      some (g c j)) :
    p.sql_gen_stmts (some t) none none none none none true =
      some ((chunks.map (fun c =>
        (List.range (effectiveCols p).length).map (g c))).flatten) := by
  unfold RangePartitioner.sql_gen_stmts
  rw [hiter]
  simp only [truthyS_none_eq, Bool.false_eq_true, if_false, ht, if_true,
    and_false]
  rw [traverseOpt_congr_some _
    (fun ic : Nat × Chunk =>
      (List.range (effectiveCols p).length).map (g ic.2)) _ ?_]
  · rw [Option.map_some']
    refine congrArg some ?_
    refine congrArg List.flatten ?_
    exact map_enumFrom_snd
      (fun c => (List.range (effectiveCols p).length).map (g c)) chunks 0
  · intro ic hic
    have hmem : ic.2 ∈ chunks := enumFrom_snd_mem hic
    dsimp only
    simp only [optStr_some]
    rw [traverseOpt_congr_some _ (fun jc : Nat × String => g ic.2 jc.1) _ ?_]
    · rw [map_enumFrom_fst (g ic.2) _ 0]
      simp only [Nat.zero_add]
      rfl
    · intro jc _
      exact hg ic.2 hmem jc.1

/-- `_sql_gen` with only a preamble template (trigger/drop-trigger): the
chunker is still consumed, then the single formatted statement returned. -/
theorem sql_gen_stmts_pre_only (p : RangePartitioner) (chunks : List Chunk)
    (hiter : p.chunker.iter = some chunks) (st : String)
    (ht : truthyS (some st) = true) (s0 : String)
    (hfmt : formatPy st [("master_table_name", p.table_name)] = some s0) :
    p.sql_gen_stmts none (some st) none none none none false =
      some [s0] := by
  unfold RangePartitioner.sql_gen_stmts
  rw [hiter]
  simp only [ht, if_true, optStr_some, hfmt, Option.map_some',
    truthyS_none_eq, Bool.false_eq_true, if_false, List.append_nil]

/-- `function_code`'s statement list for a non-empty chunk sequence: the
preamble, an `IF` branch for the first chunk, an `ELSIF` branch per later
chunk, and the `ELSE … RAISE EXCEPTION` postamble. -/
theorem function_code_stmts_eq (p : RangePartitioner) (c0 : Chunk)
    (rest : List Chunk) (hiter : p.chunker.iter = some (c0 :: rest)) :
    p.function_code_stmts =
      some (funcPre p.table_name ::
        (funcBranch "IF" p c0 :: rest.map (funcBranch "ELSIF" p)) ++
        [funcPost p.column p.table_name]) := by
  unfold RangePartitioner.function_code_stmts RangePartitioner.sql_gen_stmts
  rw [hiter]
  rw [show truthyS (some funcStart) = true from rfl,
    show truthyS (some funcTemp) = true from rfl,
    show truthyS (some funcEnd) = true from rfl]
  simp only [if_true, optStr_some, formatPy_funcStart, Option.map_some',
    truthyS_none_eq, Bool.false_eq_true, and_false, if_false]
  rw [traverseOpt_congr_some _
    (fun ic : Nat × Chunk =>
      [funcBranch (if ic.1 = 0 then "IF" else "ELSIF") p ic.2]) _ ?_]
  · simp only [Option.map_some', flatten_map_singleton, formatPy_funcEnd]
    refine congrArg some ?_
    rw [show List.enumFrom 0 (c0 :: rest) = (0, c0) :: List.enumFrom 1 rest
      from rfl]
    simp only [List.map_cons, eq_self_iff_true, if_true]
    rw [map_enumFrom_pos _ (funcBranch "ELSIF" p) rest 1 (by omega)
      (fun i a hi => by rw [if_neg hi])]
    simp only [List.cons_append, List.nil_append, List.singleton_append]
  · intro ic hic
    have hmem : ic.2 ∈ c0 :: rest := enumFrom_snd_mem hic
    dsimp only
    by_cases h0 : ic.1 = 0
    · rw [if_pos (by exact ⟨h0, show truthyS (some "IF") = true from rfl⟩),
        if_pos h0]
      rw [optStr_some, formatPy_funcTemp]
      rfl
    · rw [if_neg (by intro hc; exact h0 hc.1), if_neg h0]
      rw [optStr_some, formatPy_funcTemp]
      rfl

/-- `function_code`'s statement list for an empty chunk sequence: the
preamble and postamble are still emitted. -/
theorem function_code_stmts_empty (p : RangePartitioner)
    (hiter : p.chunker.iter = some []) :
    p.function_code_stmts =
      some [funcPre p.table_name, funcPost p.column p.table_name] := by
  unfold RangePartitioner.function_code_stmts RangePartitioner.sql_gen_stmts
  rw [hiter]
  rw [show truthyS (some funcStart) = true from rfl,
    show truthyS (some funcTemp) = true from rfl,
    show truthyS (some funcEnd) = true from rfl]
  simp only [if_true, optStr_some, formatPy_funcStart, Option.map_some',
    formatPy_funcEnd]
  rfl

/-! ### Per-operation rendered forms -/

theorem create_ddl_eq (p : RangePartitioner) (chunks : List Chunk)
    (hiter : p.chunker.iter = some chunks) :
    p.create_ddl =
      some (String.intercalate "\n" (chunks.map (createStmt p))) := by
  unfold RangePartitioner.create_ddl RangePartitioner.sql_gen
  rw [sql_gen_stmts_body p chunks hiter createTemp rfl none none
    (fun _ c => createStmt p c)
    (fun pos c _ => by rw [formatPy_createTemp]; rfl)]
  rw [Option.map_some']
  refine congrArg some (congrArg _ ?_)
  exact map_enumFrom_snd (createStmt p) chunks 0

theorem drop_ddl_eq (p : RangePartitioner) (chunks : List Chunk)
    (hiter : p.chunker.iter = some chunks) :
    p.drop_ddl =
      some (String.intercalate "\n" (chunks.map (dropStmt p))) := by
  unfold RangePartitioner.drop_ddl RangePartitioner.sql_gen
  rw [sql_gen_stmts_body p chunks hiter dropTemp rfl none none
    (fun _ c => dropStmt p c)
    (fun pos c _ => by rw [formatPy_dropTemp]; rfl)]
  rw [Option.map_some']
  refine congrArg some (congrArg _ ?_)
  exact map_enumFrom_snd (dropStmt p) chunks 0

theorem formatPy_vacuum (col st en mtn tn pi : String) :
    formatPy "VACUUM \x7btable_name\x7d;"
      [("column", col), ("start", st), ("end", en),
       ("master_table_name", mtn), ("table_name", tn), ("pos_item", pi)] =
      some ("VACUUM " ++ tn ++ ";") := by
  unfold formatPy
  rw [show parseTemplate ("VACUUM \x7btable_name\x7d;").data =
    some [Seg.lit "VACUUM ", Seg.key "table_name", Seg.lit ";"] from rfl]
  simp [renderSegs, lookupEnv, List.find?, String.append_assoc]

/-- C8 (amended): the recognized placeholder is `table_name`, not `table`;
with the template `VACUUM \x7btable_name\x7d;` the arbitrary-SQL operation
returns one rendered statement per chunk, with the chunk's partition table
name substituted, joined by newlines in chunk order. -/
theorem sql_vacuum_eq (p : RangePartitioner) (chunks : List Chunk)
    (hiter : p.chunker.iter = some chunks) :
    p.sql "VACUUM \x7btable_name\x7d;" none none =
      some (String.intercalate "\n" (chunks.map (fun c =>
        "VACUUM " ++ partTable p c ++ ";"))) := by
  unfold RangePartitioner.sql RangePartitioner.sql_gen
  rw [sql_gen_stmts_body p chunks hiter "VACUUM \x7btable_name\x7d;" rfl
    none none (fun _ c => "VACUUM " ++ partTable p c ++ ";")
    (fun pos c _ => by rw [formatPy_vacuum]; rfl)]
  rw [Option.map_some']
  refine congrArg some (congrArg _ ?_)
  exact map_enumFrom_snd (fun c => "VACUUM " ++ partTable p c ++ ";")
    chunks 0

theorem create_idx_stmts_eq (p : RangePartitioner) (chunks : List Chunk)
    (hiter : p.chunker.iter = some chunks) :
    p.create_idx_stmts =
      some ((chunks.map (fun c =>
        (List.range (effectiveCols p).length).map
          (idxCreateStmt p c))).flatten) := by
  unfold RangePartitioner.create_idx_stmts
  rw [sql_gen_stmts_idx p chunks hiter idxCreateTemp rfl
    (fun c j => idxCreateStmt p c j)
    (fun c _ j => by rw [formatPy_idxCreateTemp]; rfl)]

theorem drop_idx_stmts_eq (p : RangePartitioner) (chunks : List Chunk)
    (hiter : p.chunker.iter = some chunks) :
    p.drop_idx_stmts =
      some ((chunks.map (fun c =>
        (List.range (effectiveCols p).length).map
          (idxDropStmt p c))).flatten) := by
  unfold RangePartitioner.drop_idx_stmts
  rw [sql_gen_stmts_idx p chunks hiter idxDropTemp rfl
    (fun c j => idxDropStmt p c j)
    (fun c _ j => by rw [formatPy_idxDropTemp]; rfl)]

theorem trigger_code_eq (p : RangePartitioner) (chunks : List Chunk)
    (hiter : p.chunker.iter = some chunks) :
    p.trigger_code = some (trigStmt p.table_name) := by
  unfold RangePartitioner.trigger_code RangePartitioner.sql_gen
  rw [sql_gen_stmts_pre_only p chunks hiter trigTemp rfl _
    (formatPy_trigTemp p.table_name)]
  rfl

theorem drop_trigger_code_eq (p : RangePartitioner) (chunks : List Chunk)
    (hiter : p.chunker.iter = some chunks) :
    p.drop_trigger_code = some (dropTrigStmt p.table_name) := by
  unfold RangePartitioner.drop_trigger_code RangePartitioner.sql_gen
  rw [sql_gen_stmts_pre_only p chunks hiter dropTrigTemp rfl _
    (formatPy_dropTrigTemp p.table_name)]
  rfl

/-! ### Boundary structure of the calendar chunker -/

theorem pairsOfConsec_contig {α : Type} :
    ∀ (l : List α) (i : Nat) (a b : α × α),
      (pairsOfConsec l)[i]? = some a → (pairsOfConsec l)[i + 1]? = some b →
      a.2 = b.1 := by
  intro l
  induction l with
  | nil => intro i a b ha _; simp [pairsOfConsec] at ha
  | cons x rest ih =>
    intro i a b ha hb
    match rest with
    | [] => simp [pairsOfConsec] at ha
    | y :: t =>
      rw [show pairsOfConsec (x :: y :: t) = (x, y) :: pairsOfConsec (y :: t)
        from rfl] at ha hb
      match i with
      | 0 =>
        rw [List.getElem?_cons_zero] at ha
        injection ha with ha
        subst ha
        rw [List.getElem?_cons_succ] at hb
        -- b is the head of pairsOfConsec (y :: t), whose first is y
        match t with
        | [] => simp [pairsOfConsec] at hb
        | z :: t2 =>
          rw [show pairsOfConsec (y :: z :: t2) =
            (y, z) :: pairsOfConsec (z :: t2) from rfl] at hb
          rw [List.getElem?_cons_zero] at hb
          injection hb with hb
          subst hb
          rfl
      | i + 1 =>
        rw [List.getElem?_cons_succ] at ha hb
        exact ih i a b ha hb

theorem pairsOfConsec_head {α : Type} (l : List α) (pr : α × α)
    (h : (pairsOfConsec l).head? = some pr) :
    l.head? = some pr.1 := by
  match l with
  | [] => simp [pairsOfConsec] at h
  | [x] => simp [pairsOfConsec] at h
  | x :: y :: t =>
    rw [show pairsOfConsec (x :: y :: t) = (x, y) :: pairsOfConsec (y :: t)
      from rfl] at h
    injection h with h
    subst h
    rfl

theorem pairsOfConsec_last {α : Type} :
    ∀ (l : List α) (pr : α × α),
      (pairsOfConsec l).getLast? = some pr → l.getLast? = some pr.2 := by
  intro l
  induction l with
  | nil => intro pr h; simp [pairsOfConsec] at h
  | cons x rest ih =>
    intro pr h
    match rest with
    | [] => simp [pairsOfConsec] at h
    | y :: t =>
      rw [show pairsOfConsec (x :: y :: t) = (x, y) :: pairsOfConsec (y :: t)
        from rfl] at h
      match ht : pairsOfConsec (y :: t) with
      | [] =>
        rw [ht] at h
        injection h with h
        subst h
        -- t must be [] here: pairsOfConsec (y :: t) = [] forces t = []
        match t with
        | [] => rfl
        | z :: t2 => simp [pairsOfConsec] at ht
      | q :: qs =>
        rw [ht, List.getLast?_cons_cons] at h
        have := ih pr (by rw [ht]; exact h)
        rw [List.getLast?_cons_cons]
        exact this

theorem mkDate_valid {y m : Int} {d : Date} (h : mkDate y m = some d) :
    d.Valid := by
  unfold mkDate at h
  split at h
  · injection h with h
    subst h
    exact ‹_›
  · exact absurd h (by simp)

theorem add_month_valid {d : Date} {k : Int} {d' : Date}
    (h : add_month d k = some d') : d'.Valid := by
  unfold add_month at h
  by_cases hc : d.month + k > 12
  · rw [if_pos hc] at h
    exact mkDate_valid h
  · rw [if_neg hc] at h
    exact mkDate_valid h

theorem add_month_one {d d' : Date} (hv : d.Valid)
    (h : add_month d 1 = some d') :
    d'.Valid ∧ dateMeasure d' = dateMeasure d + 1 := by
  obtain ⟨hy1, hy2, hm1, hm2⟩ := hv
  unfold add_month at h
  by_cases hm : d.month + 1 > 12
  · rw [if_pos hm] at h
    have hm12 : d.month = 12 := by omega
    rw [show Int.fdiv 1 12 = 0 from rfl] at h
    rw [show d.month + 1 = 13 from by omega] at h
    rw [show Int.fmod 13 12 = 1 from rfl] at h
    refine ⟨mkDate_valid h, ?_⟩
    unfold mkDate at h
    split at h
    · injection h with h
      subst h
      unfold dateMeasure
      dsimp only
      omega
    · exact absurd h (by simp)
  · rw [if_neg hm] at h
    refine ⟨mkDate_valid h, ?_⟩
    unfold mkDate at h
    split at h
    · injection h with h
      subst h
      unfold dateMeasure
      dsimp only
      omega
    · exact absurd h (by simp)

theorem dateLt_iff_measure {a b : Date} (ha : a.Valid) (hb : b.Valid) :
    dateLt a b = true ↔ dateMeasure a < dateMeasure b := by
  obtain ⟨_, _, ham1, ham2⟩ := ha
  obtain ⟨_, _, hbm1, hbm2⟩ := hb
  unfold dateLt dateMeasure
  rw [Bool.or_eq_true, Bool.and_eq_true, decide_eq_true_iff,
    decide_eq_true_iff, beq_iff_eq]
  omega

theorem measure_inj {a b : Date} (ha : a.Valid) (hb : b.Valid)
    (h : dateMeasure a = dateMeasure b) : a = b := by
  obtain ⟨_, _, ham1, ham2⟩ := ha
  obtain ⟨_, _, hbm1, hbm2⟩ := hb
  unfold dateMeasure at h
  have hy : a.year = b.year := by omega
  have hm : a.month = b.month := by omega
  cases a; cases b
  simp only at hy hm
  rw [hy, hm]

theorem month_rangeAux_head {fuel : Nat} {item e : Date} {s : Int}
    {l : List Date} (h : month_rangeAux fuel item e s = some l)
    (hne : l ≠ []) : l.head? = some item := by
  match fuel with
  | 0 => exact absurd h (by simp [month_rangeAux])
  | fuel + 1 =>
    unfold month_rangeAux at h
    by_cases hlt : dateLt item e
    · rw [if_pos hlt] at h
      match ham : add_month item s with
      | none => rw [ham] at h; exact absurd h (by simp)
      | some next =>
        rw [ham] at h
        replace h : Option.map (fun x => item :: x)
          (month_rangeAux fuel next e s) = some l := h
        match hrec : month_rangeAux fuel next e s with
        | none => rw [hrec] at h; exact absurd h (by simp)
        | some l' =>
          rw [hrec] at h
          rw [Option.map_some'] at h
          injection h with h
          subst h
          rfl
    · rw [if_neg hlt] at h
      injection h with h
      exact absurd h.symm hne

theorem month_rangeAux_nil {fuel : Nat} {item e : Date} {s : Int}
    (h : month_rangeAux fuel item e s = some []) :
    dateLt item e = false := by
  match fuel with
  | 0 => exact absurd h (by simp [month_rangeAux])
  | fuel + 1 =>
    unfold month_rangeAux at h
    by_cases hlt : dateLt item e
    · rw [if_pos hlt] at h
      match ham : add_month item s with
      | none => rw [ham] at h; exact absurd h (by simp)
      | some next =>
        rw [ham] at h
        replace h : Option.map (fun x => item :: x)
          (month_rangeAux fuel next e s) = some [] := h
        match hrec : month_rangeAux fuel next e s with
        | none => rw [hrec] at h; exact absurd h (by simp)
        | some l' => rw [hrec] at h; simp at h
    · simp only [Bool.not_eq_true] at hlt
      exact hlt

theorem month_rangeAux_last {s : Int} :
    ∀ (fuel : Nat) (item e : Date) (l : List Date),
      month_rangeAux fuel item e s = some l → l ≠ [] → item.Valid →
      ∃ b, l.getLast? = some b ∧ b.Valid ∧ dateLt b e = true ∧
        ∃ nxt, add_month b s = some nxt ∧ dateLt nxt e = false := by
  intro fuel
  induction fuel with
  | zero => intro item e l h; exact absurd h (by simp [month_rangeAux])
  | succ fuel ih =>
    intro item e l h hne hv
    unfold month_rangeAux at h
    by_cases hlt : dateLt item e
    · rw [if_pos hlt] at h
      match ham : add_month item s with
      | none => rw [ham] at h; exact absurd h (by simp)
      | some next =>
        rw [ham] at h
        replace h : Option.map (fun x => item :: x)
          (month_rangeAux fuel next e s) = some l := h
        match hrec : month_rangeAux fuel next e s with
        | none => rw [hrec] at h; exact absurd h (by simp)
        | some l' =>
          rw [hrec] at h
          rw [Option.map_some'] at h
          injection h with h
          subst h
          match l' with
          | [] =>
            refine ⟨item, rfl, hv, hlt, next, ham, ?_⟩
            exact month_rangeAux_nil hrec
          | q :: qs =>
            have hvnext : next.Valid := add_month_valid ham
            obtain ⟨b, hb, hbv, hblt, nxt, hnxt, hnlt⟩ :=
              ih next e (q :: qs) hrec (by simp) hvnext
            refine ⟨b, ?_, hbv, hblt, nxt, hnxt, hnlt⟩
            rw [List.getLast?_cons_cons]
            exact hb
    · rw [if_neg hlt] at h
      injection h with h
      exact absurd h.symm hne

/-! ### Prefix facts for counting `IF`/`ELSIF`/`ELSE` lines -/

theorem str_data_append (s t : String) : (s ++ t).data = s.data ++ t.data := rfl

theorem sw_if_pre (tn : String) :
    strStartsWith "    IF ( NEW." (funcPre tn) = false := by
  unfold strStartsWith funcPre
  simp only [str_data_append, List.append_assoc, List.cons_append,
    List.nil_append]
  simp [List.isPrefixOf]

theorem sw_if_branch_if (p : RangePartitioner) (c : Chunk) :
    strStartsWith "    IF ( NEW." (funcBranch "IF" p c) = true := by
  unfold strStartsWith funcBranch
  simp only [str_data_append, List.append_assoc, List.cons_append,
    List.nil_append]
  simp [List.isPrefixOf]

theorem sw_if_branch_elsif (p : RangePartitioner) (c : Chunk) :
    strStartsWith "    IF ( NEW." (funcBranch "ELSIF" p c) = false := by
  unfold strStartsWith funcBranch
  simp only [str_data_append, List.append_assoc, List.cons_append,
    List.nil_append]
  simp [List.isPrefixOf]

theorem sw_if_post (col tn : String) :
    strStartsWith "    IF ( NEW." (funcPost col tn) = false := by
  unfold strStartsWith funcPost
  simp only [str_data_append, List.append_assoc, List.cons_append,
    List.nil_append]
  simp [List.isPrefixOf]

theorem sw_elsif_pre (tn : String) :
    strStartsWith "    ELSIF ( NEW." (funcPre tn) = false := by
  unfold strStartsWith funcPre
  simp only [str_data_append, List.append_assoc, List.cons_append,
    List.nil_append]
  simp [List.isPrefixOf]

theorem sw_elsif_branch_if (p : RangePartitioner) (c : Chunk) :
    strStartsWith "    ELSIF ( NEW." (funcBranch "IF" p c) = false := by
  unfold strStartsWith funcBranch
  simp only [str_data_append, List.append_assoc, List.cons_append,
    List.nil_append]
  simp [List.isPrefixOf]

theorem sw_elsif_branch_elsif (p : RangePartitioner) (c : Chunk) :
    strStartsWith "    ELSIF ( NEW." (funcBranch "ELSIF" p c) = true := by
  unfold strStartsWith funcBranch
  simp only [str_data_append, List.append_assoc, List.cons_append,
    List.nil_append]
  simp [List.isPrefixOf]

theorem sw_elsif_post (col tn : String) :
    strStartsWith "    ELSIF ( NEW." (funcPost col tn) = false := by
  unfold strStartsWith funcPost
  simp only [str_data_append, List.append_assoc, List.cons_append,
    List.nil_append]
  simp [List.isPrefixOf]

theorem sw_else_pre (tn : String) :
    strStartsWith "    ELSE\n        RAISE EXCEPTION " (funcPre tn)
      = false := by
  unfold strStartsWith funcPre
  simp only [str_data_append, List.append_assoc, List.cons_append,
    List.nil_append]
  simp [List.isPrefixOf]

theorem sw_else_branch_if (p : RangePartitioner) (c : Chunk) :
    strStartsWith "    ELSE\n        RAISE EXCEPTION "
      (funcBranch "IF" p c) = false := by
  unfold strStartsWith funcBranch
  simp only [str_data_append, List.append_assoc, List.cons_append,
    List.nil_append]
  simp [List.isPrefixOf]

theorem sw_else_branch_elsif (p : RangePartitioner) (c : Chunk) :
    strStartsWith "    ELSE\n        RAISE EXCEPTION "
      (funcBranch "ELSIF" p c) = false := by
  unfold strStartsWith funcBranch
  simp only [str_data_append, List.append_assoc, List.cons_append,
    List.nil_append]
  simp [List.isPrefixOf]

theorem sw_else_post (col tn : String) :
    strStartsWith "    ELSE\n        RAISE EXCEPTION "
      (funcPost col tn) = true := by
  unfold strStartsWith funcPost
  simp only [str_data_append, List.append_assoc, List.cons_append,
    List.nil_append]
  simp [List.isPrefixOf]


/-- C3: for a configuration whose chunker yields N >= 1 chunks, the rendered
routing function consists of the preamble, exactly one branch line opening
with `IF` (the first chunk's), exactly N-1 branch lines opening with `ELSIF`
(one per later chunk), and exactly one terminal `ELSE ... RAISE EXCEPTION`
postamble. -/
theorem function_code_branch_counts (p : RangePartitioner)
    (chunks : List Chunk) (hiter : p.chunker.iter = some chunks)
    (hne : chunks ≠ []) :
    ∃ stmts, p.function_code_stmts = some stmts ∧
      p.function_code = some (String.intercalate "\n" stmts) ∧
      stmts.length = chunks.length + 2 ∧
      stmts.head? = some (funcPre p.table_name) ∧
      stmts.getLast? = some (funcPost p.column p.table_name) ∧
      stmts.countP (fun s => strStartsWith "    IF ( NEW." s) = 1 ∧
      stmts.countP (fun s => strStartsWith "    ELSIF ( NEW." s)
        = chunks.length - 1 ∧
      stmts.countP
        (fun s => strStartsWith "    ELSE\n        RAISE EXCEPTION " s)
        = 1 := by
  match chunks with
  | [] => exact absurd rfl hne
  | c0 :: rest =>
    have hstmts := function_code_stmts_eq p c0 rest hiter
    refine ⟨_, hstmts, ?_, ?_, ?_, ?_, ?_, ?_, ?_⟩
    · show p.sql_gen _ _ _ _ _ _ _ = _
      unfold RangePartitioner.sql_gen
      rw [show p.sql_gen_stmts (some funcTemp) (some funcStart)
        (some funcEnd) (some "IF") (some "ELSIF") none false
        = p.function_code_stmts from rfl, hstmts]
      rfl
    · simp [List.length_cons, List.length_append, List.length_map]
    · rfl
    · rw [show funcPre p.table_name ::
        (funcBranch "IF" p c0 :: List.map (funcBranch "ELSIF" p) rest) ++
          [funcPost p.column p.table_name]
        = (funcPre p.table_name :: funcBranch "IF" p c0 ::
            List.map (funcBranch "ELSIF" p) rest) ++
          [funcPost p.column p.table_name] from by
        simp [List.cons_append]]
      exact List.getLast?_concat _
    · have hrest : (rest.map (funcBranch "ELSIF" p)).countP
          (fun s => strStartsWith "    IF ( NEW." s) = 0 :=
        List.countP_eq_zero.mpr (fun a ha => by
          obtain ⟨c, _, rfl⟩ := List.mem_map.mp ha
          simp [sw_if_branch_elsif])
      simp only [List.cons_append, List.countP_cons, List.countP_append,
        List.countP_nil, hrest, sw_if_pre, sw_if_branch_if, sw_if_post,
        Bool.false_eq_true, if_false, if_true]
    · have hrest : (rest.map (funcBranch "ELSIF" p)).countP
          (fun s => strStartsWith "    ELSIF ( NEW." s)
          = (rest.map (funcBranch "ELSIF" p)).length :=
        List.countP_eq_length.mpr (fun a ha => by
          obtain ⟨c, _, rfl⟩ := List.mem_map.mp ha
          simp [sw_elsif_branch_elsif])
      simp only [List.cons_append, List.countP_cons, List.countP_append,
        List.countP_nil, hrest, sw_elsif_pre, sw_elsif_branch_if,
        sw_elsif_post, Bool.false_eq_true, if_false, if_true,
        List.length_map, List.length_cons]
      omega
    · have hrest : (rest.map (funcBranch "ELSIF" p)).countP
          (fun s => strStartsWith "    ELSE\n        RAISE EXCEPTION " s)
          = 0 :=
        List.countP_eq_zero.mpr (fun a ha => by
          obtain ⟨c, _, rfl⟩ := List.mem_map.mp ha
          simp [sw_else_branch_elsif])
      simp only [List.cons_append, List.countP_cons, List.countP_append,
        List.countP_nil, hrest, sw_else_pre, sw_else_branch_if,
        sw_else_post, Bool.false_eq_true, if_false, if_true]

/-! ### Claim C1 -/

theorem dvd_bounded_zero {s x : Int} (hs : 0 < s) (hdvd : s ∣ x)
    (h0 : 0 ≤ x) (hlt : x < s) : x = 0 := by
  obtain ⟨k, rfl⟩ := hdvd
  have hk0 : 0 ≤ k := by nlinarith
  have hk1 : k < 1 := by nlinarith
  have hk : k = 0 := by omega
  rw [hk]
  ring

/-- C1 (amended): chunk `i`'s end equals chunk `i+1`'s start and the first
chunk's start equals the requested domain start, for both variants; for the
integer variant the last chunk's end is the first stride boundary at or
past the requested end — equal to it exactly when the stride divides
`end - start` — and may overshoot otherwise; for the calendar variant (at
its fixed stride 1) the last chunk's end equals the requested end. -/
theorem chunk_contiguity_boundaries :
    (∀ (start e s : Int) (l : List (Int × Int)), 0 < s →
      gen_chunks start e s = some l →
      (∀ (i : Nat) (a b : Int × Int),
        l[i]? = some a → l[i + 1]? = some b → a.2 = b.1) ∧
      (∀ a, l.head? = some a → a.1 = start) ∧
      (∀ a, l.getLast? = some a →
        e ≤ a.2 ∧ a.2 < e + s ∧ ((s ∣ e - start) → a.2 = e))) ∧
    (∀ (d1 d2 : Date) (cl : List (Date × Date)), d1.Valid → d2.Valid →
      month_chunk d1 d2 1 = some cl →
      (∀ (i : Nat) (a b : Date × Date),
        cl[i]? = some a → cl[i + 1]? = some b → a.2 = b.1) ∧
      (∀ pr, cl.head? = some pr → pr.1 = d1) ∧
      (∀ pr, cl.getLast? = some pr → pr.2 = d2)) := by
  constructor
  · intro start e s l hs hgen
    rw [gen_chunks_pos_eq start e s hs] at hgen
    injection hgen with hgen
    subst hgen
    set n : Nat := rangeLen start e s with hn
    have getl : ∀ (i : Nat) (a : Int × Int),
        ((List.range n).map (fun (i : Nat) =>
          (start + s * (i : Int), start + s * ((i : Int) + 1))))[i]? = some a →
        i < n ∧ a = (start + s * (i : Int), start + s * ((i : Int) + 1)) := by
      intro i a ha
      by_cases hi : i < n
      · refine ⟨hi, ?_⟩
        simp only [List.getElem?_map, List.getElem?_range, hi, if_true,
          Option.map_some'] at ha
        injection ha with ha
        exact ha.symm
      · exfalso
        simp only [List.getElem?_map] at ha
        rw [List.getElem?_eq_none (by simpa [List.length_range] using hi)]
          at ha
        simp at ha
    refine ⟨?_, ?_, ?_⟩
    · intro i a b ha hb
      obtain ⟨hi, rfl⟩ := getl i a ha
      obtain ⟨hi1, rfl⟩ := getl (i + 1) b hb
      dsimp only
      push_cast
      ring
    · intro a ha
      rw [List.head?_eq_getElem?] at ha
      obtain ⟨h0, rfl⟩ := getl 0 a ha
      dsimp only
      push_cast
      ring
    · intro a ha
      have hn0 : 0 < n := by
        rcases Nat.eq_zero_or_pos n with h0 | h0
        · exfalso
          rw [h0] at ha
          simp at ha
        · exact h0
      have hlt : start < e := by
        by_contra hc
        push_neg at hc
        have := (rangeLen_eq_zero_iff start e s).mpr hc
        omega
      rw [getLast?_range_map _ _ hn0] at ha
      injection ha with ha
      subst ha
      obtain ⟨hlast_lt, hnext_ge⟩ := rangeLen_bounds start e s hlt hs
      have hcast : ((n - 1 : Nat) : Int) + 1 = ((n : Nat) : Int) := by
        have h1 : (1 : Nat) ≤ n := hn0
        push_cast [Nat.cast_sub h1]
        ring
      dsimp only
      rw [hcast]
      have hlt2 : start + s * ((n : Nat) : Int) < e + s := by
        have : s * ((n : Nat) : Int) = s * ((n - 1 : Nat) : Int) + s := by
          rw [← hcast]; ring
        linarith
      refine ⟨hnext_ge, hlt2, ?_⟩
      intro hdvd
      have hdvd2 : s ∣ start + s * ((n : Nat) : Int) - e := by
        obtain ⟨k, hk⟩ := hdvd
        exact ⟨(n : Int) - k, by rw [show start + s * ((n : Nat) : Int) - e
          = s * (n : Int) - (e - start) from by ring, hk]; ring⟩
      have := dvd_bounded_zero hs hdvd2 (by linarith) (by linarith)
      linarith
  · intro d1 d2 cl hv1 hv2 hmc
    unfold month_chunk at hmc
    cases ham : add_month d2 1 with
    | none => rw [ham] at hmc; exact absurd hmc (by simp)
    | some e2 =>
      rw [ham] at hmc
      replace hmc : Option.map pairsOfConsec (month_range d1 e2 1)
          = some cl := hmc
      cases hmr : month_range d1 e2 1 with
      | none => rw [hmr] at hmc; exact absurd hmc (by simp)
      | some l =>
        rw [hmr, Option.map_some'] at hmc
        injection hmc with hmc
        subst hmc
        unfold month_range at hmr
        refine ⟨fun i a b ha hb => pairsOfConsec_contig l i a b ha hb,
          ?_, ?_⟩
        · intro pr hpr
          have hhead := pairsOfConsec_head l pr hpr
          have hne : l ≠ [] := by
            intro hnil
            rw [hnil] at hhead
            simp at hhead
          have := month_rangeAux_head hmr hne
          rw [this] at hhead
          injection hhead with hhead
          exact hhead.symm
        · intro pr hpr
          have hlast := pairsOfConsec_last l pr hpr
          have hne : l ≠ [] := by
            intro hnil
            rw [hnil] at hlast
            simp at hlast
          obtain ⟨b, hb, hbv, hblt, nxt, hnxt, hnlt⟩ :=
            month_rangeAux_last _ d1 e2 l hmr hne hv1
          rw [hb] at hlast
          injection hlast with hlast
          obtain ⟨hv2', hm2⟩ := add_month_one hv2 ham
          obtain ⟨hvn, hmn⟩ := add_month_one hbv hnxt
          have h1 : dateMeasure b < dateMeasure e2 :=
            (dateLt_iff_measure hbv hv2').mp hblt
          have h2 : ¬(dateMeasure nxt < dateMeasure e2) := by
            rw [← dateLt_iff_measure hvn hv2']
            simp [hnlt]
          have hmeq : dateMeasure b = dateMeasure d2 := by omega
          rw [← hlast]
          exact measure_inj hbv hv2 hmeq

/-! ### Claims C4, C5, C6, C7, C8, C9, C10 and witnesses -/

theorem intercalate_nil : String.intercalate "\n" [] = "" := rfl
theorem intercalate_pair (a b : String) :
    String.intercalate "\n" [a, b] = a ++ "\n" ++ b := rfl

/-- Any `_sql_gen` call propagates a chunker failure: `list(self.chunker)`
runs before any template is rendered. -/
theorem sql_gen_stmts_chunker_none (p : RangePartitioner)
    (t st en f m la : Option String) (di : Bool)
    (h : p.chunker.iter = none) :
    p.sql_gen_stmts t st en f m la di = none := by
  unfold RangePartitioner.sql_gen_stmts
  rw [h]
  cases hst : (if truthyS st = true then
      (formatPy (optStr st) [("master_table_name", p.table_name)]).map
        (fun s => [s])
    else some []) with
  | none => rfl
  | some l => rfl

/-- `p.sql` on a zero-chunk domain renders the empty string for every
template, even one with bad placeholders (the loop body never runs). -/
theorem sql_empty_chunks (p : RangePartitioner) (t : String)
    (hiter : p.chunker.iter = some []) :
    p.sql t none none = some "" := by
  unfold RangePartitioner.sql RangePartitioner.sql_gen
    RangePartitioner.sql_gen_stmts
  rw [hiter]
  by_cases htr : truthyS (some t) = true
  · simp [htr, truthyS_none_eq, traverseOpt, intercalate_nil]
  · simp [htr, truthyS_none_eq, intercalate_nil]

/-- C4 counterexample: with an empty domain, `function_code` is not the
empty string — its preamble and postamble are still emitted. -/
theorem function_code_empty_cex :
    (IntPartitioner "t" "c" 0 0 1).chunker.iter = some [] ∧
    (IntPartitioner "t" "c" 0 0 1).function_code ≠ some "" := by
  constructor
  · decide
  · decide

/-- C4 (amended): for a domain whose chunker yields zero chunks, the
create/drop/index/arbitrary-SQL renderings are the empty string and the
trigger statements are their domain-independent single statements, but
`function_code` still emits its preamble and postamble. -/
theorem empty_domain_renderings (p : RangePartitioner)
    (hiter : p.chunker.iter = some []) :
    p.create_ddl = some "" ∧ p.drop_ddl = some "" ∧
    p.create_idx_ddl = some "" ∧ p.drop_idx_ddl = some "" ∧
    (∀ t : String, p.sql t none none = some "") ∧
    p.trigger_code = some (trigStmt p.table_name) ∧
    p.drop_trigger_code = some (dropTrigStmt p.table_name) ∧
    p.function_code =
      some (funcPre p.table_name ++ "\n" ++ funcPost p.column p.table_name) ∧
    p.function_code ≠ some "" := by
  refine ⟨?_, ?_, ?_, ?_, fun t => sql_empty_chunks p t hiter, ?_, ?_,
    ?_, ?_⟩
  · simpa using create_ddl_eq p [] hiter
  · simpa using drop_ddl_eq p [] hiter
  · rw [show p.create_idx_ddl
      = (p.create_idx_stmts).map (String.intercalate "\n") from rfl,
      create_idx_stmts_eq p [] hiter]
    rfl
  · rw [show p.drop_idx_ddl
      = (p.drop_idx_stmts).map (String.intercalate "\n") from rfl,
      drop_idx_stmts_eq p [] hiter]
    rfl
  · exact trigger_code_eq p [] hiter
  · exact drop_trigger_code_eq p [] hiter
  · rw [show p.function_code
      = (p.function_code_stmts).map (String.intercalate "\n") from rfl,
      function_code_stmts_empty p hiter]
    rw [Option.map_some', intercalate_pair]
  · rw [show p.function_code
      = (p.function_code_stmts).map (String.intercalate "\n") from rfl,
      function_code_stmts_empty p hiter]
    rw [Option.map_some', intercalate_pair]
    intro hc
    injection hc with hc
    have : (funcPre p.table_name ++ "\n" ++ funcPost p.column p.table_name).data
        = ("" : String).data := by rw [hc]
    rw [str_data_append, str_data_append] at this
    unfold funcPre at this
    rw [str_data_append, str_data_append] at this
    simp at this

/-- C4 witness at a concrete empty domain. -/
theorem empty_domain_renderings_witness :
    (IntPartitioner "t" "c" 5 5 1).create_ddl = some "" ∧
    (IntPartitioner "t" "c" 5 5 1).sql "VACUUM \x7btable_name\x7d;"
      none none = some "" ∧
    (IntPartitioner "t" "c" 5 5 1).function_code ≠ some "" :=
  ⟨(empty_domain_renderings _ (by decide)).1,
   (empty_domain_renderings _ (by decide)).2.2.2.2.1 _,
   (empty_domain_renderings _ (by decide)).2.2.2.2.2.2.2.2⟩

/-- C5 counterexample, refuting both clauses of the claim at concrete
inputs: (i) the integer chunker does not fail when `end <= start` — it
yields the empty sequence, and no `DomainError` type exists in the code;
(ii) for the calendar variant, failure is not confined to malformed
literals: `'2012-01'` and `'9999-12'` both parse under the default format,
yet iteration raises, because `month_chunk` eagerly computes
`add_month(end)`, which builds `dt.date(10000, 1, 1)` (`ValueError`). -/
theorem chunker_failure_claims_cex :
    (IntChunker.iter ⟨1, 0, 1⟩ = some [] ∧
      IntChunker.iter ⟨1, 0, 1⟩ ≠ none) ∧
    (parseYM "2012-01" = some ⟨2012, 1⟩ ∧
      parseYM "9999-12" = some ⟨9999, 12⟩ ∧
      add_month ⟨9999, 12⟩ 1 = none ∧
      MonthChunker.iter ⟨"2012-01", "9999-12"⟩ = none) := by
  refine ⟨⟨by decide, by decide⟩, by decide, by decide, by decide,
    by decide⟩

/-- C5 (amended): for the integer variant with positive stride,
`end ≤ start` yields the empty sequence without raising; a zero stride is
the integer failure mode (`ValueError` from `xrange`); for the calendar
variant an unparseable `start` or `end` raises, but not only a malformed
literal fails: even with both literals well-formed, iteration raises
whenever `add_month(end)` leaves the representable date range (as for
end = '9999-12'). -/
theorem chunker_degenerate_and_failure (start e stride : Int)
    (ds de : String) :
    (0 < stride → e ≤ start → IntChunker.iter ⟨start, e, stride⟩ = some []) ∧
    (stride = 0 → IntChunker.iter ⟨start, e, stride⟩ = none) ∧
    (parseYM ds = none → MonthChunker.iter ⟨ds, de⟩ = none) ∧
    (parseYM de = none → MonthChunker.iter ⟨ds, de⟩ = none) ∧
    (∀ sd ed : Date, parseYM ds = some sd → parseYM de = some ed →
      add_month ed 1 = none → MonthChunker.iter ⟨ds, de⟩ = none) := by
  refine ⟨?_, ?_, ?_, ?_, ?_⟩
  · intro hs hle
    unfold IntChunker.iter
    rw [gen_chunks_pos_eq _ _ _ hs]
    rw [(rangeLen_eq_zero_iff start e stride).mpr hle]
    rfl
  · intro h0
    unfold IntChunker.iter gen_chunks xrange
    rw [if_pos h0]
    rfl
  · intro hp
    unfold MonthChunker.iter month_chunk_str
    rw [hp]
    rfl
  · intro hp
    unfold MonthChunker.iter month_chunk_str
    rw [hp]
    cases parseYM ds <;> rfl
  · intro sd ed hs he ham
    have h1 : month_chunk sd ed 1 = none := by
      unfold month_chunk
      rw [ham]
    have h2 : month_chunk_str ds de 1 = none := by
      unfold month_chunk_str
      rw [hs, he]
      show (month_chunk sd ed 1).map
        (List.map (fun c => (date_strftime c.1, date_strftime c.2))) = none
      rw [h1]
      rfl
    unfold MonthChunker.iter
    rw [h2]
    rfl

/-- C5 witness at concrete inputs, one per conjunct. -/
theorem chunker_degenerate_and_failure_witness :
    IntChunker.iter ⟨5, 5, 2⟩ = some [] ∧
    IntChunker.iter ⟨0, 5, 0⟩ = none ∧
    MonthChunker.iter ⟨"garbage", "2013-02"⟩ = none ∧
    MonthChunker.iter ⟨"2012-11", "2013-99"⟩ = none ∧
    MonthChunker.iter ⟨"2012-01", "9999-12"⟩ = none :=
  ⟨(chunker_degenerate_and_failure 5 5 2 "x" "y").1 (by decide) (by decide),
   (chunker_degenerate_and_failure 0 5 0 "x" "y").2.1 rfl,
   (chunker_degenerate_and_failure 0 0 1 "garbage" "2013-02").2.2.1
     (by decide),
   (chunker_degenerate_and_failure 0 0 1 "2012-11" "2013-99").2.2.2.1
     (by decide),
   (chunker_degenerate_and_failure 0 0 1 "2012-01" "9999-12").2.2.2.2
     ⟨2012, 1⟩ ⟨9999, 12⟩ (by decide) (by decide) (by decide)⟩

/-- C6 counterexample: a negative stride does not fail fast; with
`start < end` it silently renders empty output. -/
theorem negative_stride_silent_cex :
    ((-1 : Int) ≤ 0) ∧
    (IntPartitioner "t" "c" 0 5 (-1)).create_ddl = some "" := by
  constructor
  · decide
  · decide

/-- C6 (amended): a zero stride or an unparseable date raises before any
text is returned — every rendering operation yields no string at all,
never a partially-rendered one; a negative stride, however, does not
raise. -/
theorem fail_fast_renderings :
    (∀ (tn col : String) (s e : Int),
      (IntPartitioner tn col s e 0).chunker.iter = none) ∧
    (∀ (tn col ds de : String), parseYM ds = none ∨ parseYM de = none →
      (MonthPartitioner tn col ds de).chunker.iter = none) ∧
    (∀ p : RangePartitioner, p.chunker.iter = none →
      p.create_ddl = none ∧ p.drop_ddl = none ∧ p.function_code = none ∧
      p.trigger_code = none ∧ p.drop_trigger_code = none ∧
      p.create_idx_ddl = none ∧ p.drop_idx_ddl = none ∧
      (∀ (t : String) (st en : Option String), p.sql t st en = none)) := by
  refine ⟨?_, ?_, ?_⟩
  · intro tn col s e
    show IntChunker.iter _ = none
    unfold IntChunker.iter gen_chunks xrange
    rw [if_pos rfl]
    rfl
  · intro tn col ds de h
    show MonthChunker.iter _ = none
    unfold MonthChunker.iter month_chunk_str
    rcases h with h | h
    · rw [h]
      rfl
    · rw [h]
      cases parseYM ds <;> rfl
  · intro p h
    refine ⟨?_, ?_, ?_, ?_, ?_, ?_, ?_, ?_⟩ <;>
      first
        | (intro t st en
           show (p.sql_gen_stmts _ _ _ _ _ _ _).map _ = none
           rw [sql_gen_stmts_chunker_none p _ _ _ _ _ _ _ h]
           rfl)
        | (show (p.sql_gen_stmts _ _ _ _ _ _ _).map _ = none
           rw [sql_gen_stmts_chunker_none p _ _ _ _ _ _ _ h]
           rfl)

/-- C6 witness at concrete inputs. -/
theorem fail_fast_renderings_witness :
    (IntPartitioner "t" "c" 0 5 0).chunker.iter = none ∧
    (IntPartitioner "t" "c" 0 5 0).create_ddl = none ∧
    (MonthPartitioner "t" "c" "junk" "2013-02").function_code = none :=
  ⟨fail_fast_renderings.1 "t" "c" 0 5,
   (fail_fast_renderings.2.2 _ (fail_fast_renderings.1 "t" "c" 0 5)).1,
   (fail_fast_renderings.2.2 _
     (fail_fast_renderings.2.1 "t" "c" "junk" "2013-02"
       (Or.inl (by decide)))).2.2.1⟩

/-- C7: the calendar chunker on start='2012-11', end='2013-02' (default
format) yields exactly three chunks with starts 2012-11-01, 2012-12-01,
2013-01-01 and final end 2013-02-01; `add_month` increments the year when
rolling over from month 12 to month 1. -/
theorem calendar_rollover_concrete :
    MonthChunker.iter ⟨"2012-11", "2013-02"⟩ = some [
      ⟨"2012-11-01", "2012-12-01", "_2012-11",
        "\x272012-11-01\x27", "\x272012-12-01\x27"⟩,
      ⟨"2012-12-01", "2013-01-01", "_2012-12",
        "\x272012-12-01\x27", "\x272013-01-01\x27"⟩,
      ⟨"2013-01-01", "2013-02-01", "_2013-01",
        "\x272013-01-01\x27", "\x272013-02-01\x27"⟩] ∧
    month_chunk_str "2012-11" "2013-02" 1 = some [
      ("2012-11-01", "2012-12-01"), ("2012-12-01", "2013-01-01"),
      ("2013-01-01", "2013-02-01")] ∧
    add_month ⟨2012, 12⟩ 1 = some ⟨2013, 1⟩ := by
  refine ⟨by decide, by decide, by decide⟩

/-- C8 counterexample: with the `\x7btable\x7d` placeholder of the claim the
rendering raises `KeyError` (the recognized key is `table_name`), instead
of returning one statement per chunk. -/
theorem sql_table_placeholder_cex :
    (IntPartitioner "test_part" "adweekid" 0 2 1).sql
      "VACUUM \x7btable\x7d;" none none = none := by
  decide

/-- C9: index creation and index drop render, for every chunk and every
zero-based group index `j`, statements whose index names are given by the
same `indexNameOf` — `{partition_table}_{j}_index` — so each DROP INDEX
name-matches its CREATE INDEX. -/
theorem idx_create_drop_names_match (p : RangePartitioner)
    (chunks : List Chunk) (hiter : p.chunker.iter = some chunks) :
    p.create_idx_stmts = some ((chunks.map (fun c =>
      (List.range (effectiveCols p).length).map
        (idxCreateStmt p c))).flatten) ∧
    p.drop_idx_stmts = some ((chunks.map (fun c =>
      (List.range (effectiveCols p).length).map
        (idxDropStmt p c))).flatten) ∧
    (∀ c j, idxCreateStmt p c j = "CREATE INDEX " ++ indexNameOf p c j ++
      " ON " ++ partTable p c ++ " (" ++
      String.intercalate "," (effectiveCols p) ++ ");") ∧
    (∀ c j, idxDropStmt p c j = "DROP INDEX " ++ indexNameOf p c j ++ ";") ∧
    (∀ c j, indexNameOf p c j
      = partTable p c ++ "_" ++ toString j ++ "_index") :=
  ⟨create_idx_stmts_eq p chunks hiter, drop_idx_stmts_eq p chunks hiter,
   fun _ _ => rfl, fun _ _ => rfl, fun _ _ => rfl⟩

/-- C9 witness at the doctest partitioner. -/
theorem idx_create_drop_names_match_witness :
    sampleIntP.create_idx_stmts = some ((sampleChunks.map (fun c =>
      (List.range (effectiveCols sampleIntP).length).map
        (idxCreateStmt sampleIntP c))).flatten) ∧
    sampleIntP.drop_idx_stmts = some ((sampleChunks.map (fun c =>
      (List.range (effectiveCols sampleIntP).length).map
        (idxDropStmt sampleIntP c))).flatten) :=
  ⟨(idx_create_drop_names_match sampleIntP sampleChunks (by decide)).1,
   (idx_create_drop_names_match sampleIntP sampleChunks (by decide)).2.1⟩

/-- C10: with an index_columns_list of two or more entries, every rendered
CREATE INDEX statement carries the comma-join of the entire list as its
column list, regardless of the group index in its name. -/
theorem create_idx_cols_whole_list (p : RangePartitioner)
    (l : List String) (hl : p.index_columns_list = some l)
    (h2 : 2 ≤ l.length) (chunks : List Chunk)
    (hiter : p.chunker.iter = some chunks) :
    ∃ stmts, p.create_idx_stmts = some stmts ∧
      stmts = (chunks.map (fun c => (List.range l.length).map (fun j =>
        "CREATE INDEX " ++ indexNameOf p c j ++ " ON " ++ partTable p c ++
          " (" ++ String.intercalate "," l ++ ");"))).flatten ∧
      ∀ s ∈ stmts, ∃ c ∈ chunks, ∃ j < l.length,
        s = "CREATE INDEX " ++ indexNameOf p c j ++ " ON " ++
          partTable p c ++ " (" ++ String.intercalate "," l ++ ");" := by
  have hcols : effectiveCols p = l := by
    simp only [effectiveCols, hl]
    rw [if_neg ?_]
    intro hemp
    rw [List.isEmpty_iff] at hemp
    rw [hemp] at h2
    simp at h2
  refine ⟨_, create_idx_stmts_eq p chunks hiter, ?_, ?_⟩
  · rw [hcols]
    refine congrArg List.flatten (List.map_congr_left ?_)
    intro c _
    refine List.map_congr_left ?_
    intro j _
    unfold idxCreateStmt
    rw [hcols]
  · intro s hs
    rw [hcols] at hs
    rw [List.mem_flatten] at hs
    obtain ⟨inner, hinner, hsin⟩ := hs
    rw [List.mem_map] at hinner
    obtain ⟨c, hc, rfl⟩ := hinner
    rw [List.mem_map] at hsin
    obtain ⟨j, hj, rfl⟩ := hsin
    rw [List.mem_range] at hj
    refine ⟨c, hc, j, hj, ?_⟩
    unfold idxCreateStmt
    rw [hcols]

/-- C10 witness at a concrete two-group configuration. -/
theorem create_idx_cols_whole_list_witness :
    ∃ stmts, sampleIdxP.create_idx_stmts = some stmts ∧
      stmts = (sampleIdxChunks.map (fun c =>
        (List.range (["a", "b"] : List String).length).map (fun j =>
        "CREATE INDEX " ++ indexNameOf sampleIdxP c j ++ " ON " ++
          partTable sampleIdxP c ++ " (" ++
          String.intercalate "," ["a", "b"] ++ ");"))).flatten ∧
      ∀ s ∈ stmts, ∃ c ∈ sampleIdxChunks,
        ∃ j < (["a", "b"] : List String).length,
        s = "CREATE INDEX " ++ indexNameOf sampleIdxP c j ++ " ON " ++
          partTable sampleIdxP c ++ " (" ++
          String.intercalate "," ["a", "b"] ++ ");" :=
  create_idx_cols_whole_list sampleIdxP ["a", "b"] rfl (by decide)
    sampleIdxChunks (by decide)

/-- C1 counterexample: at start=0, end=5, stride=3 the integer chunker's
last chunk ends at 6, not at the requested domain end 5. -/
theorem gen_chunks_overshoot_cex :
    gen_chunks 0 5 3 = some [(0, 3), (3, 6)] ∧
    ([((0 : Int), (3 : Int)), (3, 6)].getLast? = some (3, 6)) ∧
    ((6 : Int) ≠ 5) :=
  ⟨by decide, by decide, by decide⟩

/-- C1 witness at concrete inputs for both variants. -/
theorem chunk_contiguity_boundaries_witness :
    ((10 : Int) ≤ (((7 : Int), (10 : Int))).2 ∧
      (((7 : Int), (10 : Int))).2 < 10 + 3 ∧
      (((3 : Int) ∣ 10 - 1) → (((7 : Int), (10 : Int))).2 = 10)) ∧
    ((((⟨2013, 1⟩ : Date), (⟨2013, 2⟩ : Date))).2 = (⟨2013, 2⟩ : Date)) :=
  ⟨(chunk_contiguity_boundaries.1 1 10 3 [(1, 4), (4, 7), (7, 10)]
      (by decide) (by decide)).2.2 (7, 10) (by decide),
   (chunk_contiguity_boundaries.2 ⟨2012, 11⟩ ⟨2013, 2⟩
      [(⟨2012, 11⟩, ⟨2012, 12⟩), (⟨2012, 12⟩, ⟨2013, 1⟩),
       (⟨2013, 1⟩, ⟨2013, 2⟩)]
      (by decide) (by decide) (by decide)).2.2
      (⟨2013, 1⟩, ⟨2013, 2⟩) (by decide)⟩

/-- C2 witness: the theorem applied at start=1, end=10, stride=3. -/
theorem gen_chunks_coverage_witness :
    gen_chunks 1 10 3 = some [(1, 4), (4, 7), (7, 10)] := by
  obtain ⟨l, -, -, -, -, -, -, h⟩ :=
    gen_chunks_coverage 1 10 3 (by decide) (by decide)
  exact h

/-- C3 witness: branch counts of the doctest routing function. -/
theorem function_code_branch_counts_witness :
    (["CREATE OR REPLACE FUNCTION test_part_insert_function()\nRETURNS TRIGGER AS $$\nBEGIN",
      "    IF ( NEW.adweekid >= 0 AND NEW.adweekid < 1 ) THEN\n        INSERT INTO test_part_0 VALUES (NEW.*);",
      "    ELSIF ( NEW.adweekid >= 1 AND NEW.adweekid < 2 ) THEN\n        INSERT INTO test_part_1 VALUES (NEW.*);",
      "    ELSE\n        RAISE EXCEPTION \x27adweekid out of range.  Fix the test_part_insert_function() function!\x27;\n    END IF;\n    RETURN NULL;\nEND;\n$$\nLANGUAGE plpgsql;"]).countP
      (fun s => strStartsWith "    IF ( NEW." s) = 1 ∧
    (["CREATE OR REPLACE FUNCTION test_part_insert_function()\nRETURNS TRIGGER AS $$\nBEGIN",
      "    IF ( NEW.adweekid >= 0 AND NEW.adweekid < 1 ) THEN\n        INSERT INTO test_part_0 VALUES (NEW.*);",
      "    ELSIF ( NEW.adweekid >= 1 AND NEW.adweekid < 2 ) THEN\n        INSERT INTO test_part_1 VALUES (NEW.*);",
      "    ELSE\n        RAISE EXCEPTION \x27adweekid out of range.  Fix the test_part_insert_function() function!\x27;\n    END IF;\n    RETURN NULL;\nEND;\n$$\nLANGUAGE plpgsql;"]).countP
      (fun s => strStartsWith "    ELSIF ( NEW." s)
      = sampleChunks.length - 1 := by
  obtain ⟨stmts, h1, -, -, -, -, h6, h7, -⟩ :=
    function_code_branch_counts sampleIntP sampleChunks (by decide)
      (by decide)
  have h1' : sampleIntP.function_code_stmts = some
      ["CREATE OR REPLACE FUNCTION test_part_insert_function()\nRETURNS TRIGGER AS $$\nBEGIN",
       "    IF ( NEW.adweekid >= 0 AND NEW.adweekid < 1 ) THEN\n        INSERT INTO test_part_0 VALUES (NEW.*);",
       "    ELSIF ( NEW.adweekid >= 1 AND NEW.adweekid < 2 ) THEN\n        INSERT INTO test_part_1 VALUES (NEW.*);",
       "    ELSE\n        RAISE EXCEPTION \x27adweekid out of range.  Fix the test_part_insert_function() function!\x27;\n    END IF;\n    RETURN NULL;\nEND;\n$$\nLANGUAGE plpgsql;"] := by
    decide
  rw [h1'] at h1
  injection h1 with h1
  rw [h1]
  exact ⟨h6, h7⟩

/-- C8 witness: the theorem applied at the doctest partitioner. -/
theorem sql_vacuum_witness :
    sampleIntP.sql "VACUUM \x7btable_name\x7d;" none none =
      some (String.intercalate "\n" (sampleChunks.map (fun c =>
        "VACUUM " ++ partTable sampleIntP c ++ ";"))) :=
  sql_vacuum_eq sampleIntP sampleChunks (by decide)

end PgPartition
